import Mathlib

/-!
# switch.c: process-lifecycle supervisor of FreeSWITCH

A shallow embedding of the POSIX build of `src/switch.c`: the reincarnation
supervisor (`reincarnate_protect`), the signal handlers installed by `main`,
the pid-file sequence of `main`, the daemonizer with its readiness poll
(`check_fd`, `daemonize`) and the stop command (`freeswitch_kill_background`).

Every function follows one process. What the kernel answers to that process
(return values of `fork`, `waitpid`, `poll`, `read`, ...) is an explicit
argument; what the process does (system calls, messages, its exit) is the
returned trace.
-/

namespace Switch

/-! ## Constants of the C library -/

/-- Exit code `EXIT_SUCCESS`. -/
def EXIT_SUCCESS : Nat := 0
/-- Exit code `EXIT_FAILURE`. -/
def EXIT_FAILURE : Nat := 1
/-- Signal number of `SIGILL`. -/
def SIGILL : Nat := 4
/-- Signal number of `SIGKILL`, written `9` in the source. -/
def SIGKILL : Nat := 9
/-- Signal number of `SIGTERM`. -/
def SIGTERM : Nat := 15
/-- Signal number of `SIGCHLD`. -/
def SIGCHLD : Nat := 17
/-- Signal number of `SIGINT`. -/
def SIGINT : Nat := 2
/-- Error number `EINTR`. -/
def EINTR : Nat := 4

/-! ## Observable actions -/

/-- Requests that the handlers pass to `switch_core_session_ctl`. -/
inductive SessionCtl where
  | SCSC_SHUTDOWN
  | SCSC_SHUTDOWN_ELEGANT
  deriving DecidableEq, Repr

/-- Signal handler functions defined in switch.c. -/
inductive Handler where
  | handle_SIGILL
  | handle_SIGTERM
  | reincarnate_handle_sigterm
  deriving DecidableEq, Repr

/-- What a `signal`/`sigaction` call installs: a handler of switch.c, the
default disposition `SIG_DFL`, or the disposition saved by an earlier
`sigaction` call (`sa4_prev`, `sa15_prev`, `sa17_prev`). -/
inductive SigAct where
  | handler (h : Handler)
  | dfl
  | prev
  deriving DecidableEq, Repr

/-- Messages the program prints. -/
inductive Msg where
  | execv_failed
  | plan_b
  | falling_back
  | backgrounding
  | fork_error
  | setsid_error
  | fork2_error
  | waiting
  | error_starting
  | system_ready
  | killing
  | cannot_open_pid
  | cannot_lock_pid
  | unable_to_get_pid
  | engine_init_failed
  | system_error
  | switch_user_failed
  | execvp_failed
  | usage
  | version
  | requires_argument
  | unknown_option
  | must_specify
  | allocation_error
  deriving DecidableEq, Repr

/-- One observable action of the process, in the order of the source. -/
inductive Event where
  | fork (ret : Int)
  | setsid
  | sigaction (sig : Nat) (act : SigAct)
  | waitpid (pid : Int) (ret : Int)
  | execv (ok : Bool)
  | execvp (ok : Bool)
  | prctl_pdeathsig
  | kill (pid : Int) (sig : Nat)
  | stdout (m : Msg)
  | stderr (m : Msg)
  | signal (sig : Nat) (h : Handler)
  | session_ctl (c : SessionCtl) (arg : Int)
  | pipe (ret : Int)
  | poll (ret : Int)
  | read (ret : Int)
  | echo (v : Int)
  | close_read
  | close_write
  | shutdown_read
  | shutdown_write
  | getenv_bg_timeout
  | open_devnull (ret : Int)
  | dup2 (fd : Int) (target : Int)
  | close (fd : Int)
  | set_process_privileges (ret : Int)
  | set_priority (priority : Int)
  | setrlimits
  | change_user_group (ret : Int)
  | set_globals
  | getpid (ret : Int)
  | dir_make
  | file_open_read (ok : Bool)
  | file_read (bytes : List Nat)
  | file_close
  | file_open_write (ok : Bool)
  | file_lock (ok : Bool)
  | file_write (bytes : List Nat)
  | init_and_modload (ok : Bool)
  | write_ready (v : Int) (ret : Int)
  | read_ack
  | runtime_loop
  | fopen (ok : Bool)
  | fscanf (ret : Int)
  | log_error (m : Msg)
  | fclose
  deriving DecidableEq, Repr

/-- How the followed process leaves the modelled function. -/
inductive Ending where
  /-- The process called `exit(code)`. -/
  | exited (code : Nat)
  /-- The function returned to its caller (the process goes on in `main`). -/
  | returned
  /-- The function returned the value `v` (for `main`: the process ends with it). -/
  | ret (v : Int)
  /-- An assertion failed: `switch_assert` aborts the process. -/
  | aborted
  /-- The process reached `switch_core_runtime_loop`, where the engine runs. -/
  | running
  /-- An `exec` call succeeded: the process image was replaced. -/
  | replaced
  /-- The process is blocked in `waitpid`: the kernel has nothing more to report. -/
  | waiting
  deriving DecidableEq, Repr

/-- A run: the actions performed, oldest first, and the ending. -/
structure Run where
  trace : List Event
  ending : Ending
  deriving DecidableEq, Repr

/-- Put actions in front of a run. -/
def Run.after (evs : List Event) (r : Run) : Run :=
  ⟨evs ++ r.trace, r.ending⟩

/-! ## Wait statuses -/

/-- The status `waitpid` stores in `s`. -/
inductive WaitStatus where
  /-- Normal termination through `exit(code)` or return from `main`. -/
  | exited (code : Nat)
  /-- Termination by signal `sig`. -/
  | signaled (sig : Nat)
  /-- Stopped by signal `sig`. -/
  | stopped (sig : Nat)
  /-- Resumed by `SIGCONT`. -/
  | continued
  deriving DecidableEq, Repr

/-- The macro `WIFEXITED`. -/
def WIFEXITED : WaitStatus → Bool
  | .exited _ => true
  | _ => false

/-- The macro `WEXITSTATUS`: the low eight bits of the exit code. -/
def WEXITSTATUS : WaitStatus → Nat
  | .exited code => code % 256
  | _ => 0

/-- The macro `WIFSIGNALED`. -/
def WIFSIGNALED : WaitStatus → Bool
  | .signaled _ => true
  | _ => false

/-- What one `waitpid(i, &s, 0)` call gives back: the return value `r`,
`errno` (meaningful when `r = -1`) and the status `s` (meaningful otherwise). -/
structure WaitAnswer where
  r : Int
  errno : Nat
  s : WaitStatus
  deriving DecidableEq, Repr

/-! ## reincarnate_protect -/

/-- The kernel as seen by the supervisor: the return value of its `k`-th
`fork()` (`k = 0, 1, ...`) and whether the `k`-th `execv` / `execvp` succeeds. -/
structure SupervisorOS where
  fork : Nat → Int
  execv : Nat → Bool
  execvp : Nat → Bool

/-- Lines 391-393: the parent records the child and installs its handlers. -/
def parent_setup : List Event :=
  [ .sigaction SIGILL (.handler .reincarnate_handle_sigterm),
    .sigaction SIGTERM (.handler .reincarnate_handle_sigterm),
    .sigaction SIGCHLD .dfl ]

/-- Lines 412-414: the saved dispositions are put back. -/
def restore_prev : List Event :=
  [ .sigaction SIGILL .prev, .sigaction SIGTERM .prev, .sigaction SIGCHLD .prev ]

/-- Lines 415-430, the re-exec attempts before `goto refork`. `argv = none`
is the NULL pointer; `argv[0]` is non-null when the vector is not empty.
The Boolean tells whether an `exec` succeeded (then nothing follows). -/
def reexec (argv : Option (List String)) (os : SupervisorOS) (nx : Nat) : List Event × Bool :=
  match argv with
  | none => ([], false)
  | some [] => ([.stderr .plan_b, .stderr .falling_back], false)
  | some (_ :: _) =>
    if os.execv nx then ([.execv true], true)
    else if os.execvp nx then
      ([.execv false, .stderr .execv_failed, .stderr .plan_b, .execvp true], true)
    else
      ([.execv false, .stderr .execv_failed, .stderr .plan_b, .execvp false,
        .stderr .execvp_failed, .stderr .falling_back], false)

/-- Label `rewait` (lines 394-432) with tracked child `i`, after `nf` forks and
`nx` re-exec rounds; the list holds the answers of the coming `waitpid` calls.
The branch that reaches `goto refork` performs the fork of line 388 and, in
the parent, comes back to `rewait` with the new child. -/
def rewait (argv : Option (List String)) (os : SupervisorOS) :
    List WaitAnswer → Int → Nat → Nat → Run
  | [], _, _, _ => ⟨[], .waiting⟩
  | w :: ws, i, nf, nx =>
    if w.r = -1 then
      if w.errno = EINTR then (rewait argv os ws i nf nx).after [.waitpid i w.r]
      else ⟨[.waitpid i w.r], .exited EXIT_FAILURE⟩
    else if w.r ≠ i then (rewait argv os ws i nf nx).after [.waitpid i w.r]
    else if WIFEXITED w.s && (WEXITSTATUS w.s == EXIT_SUCCESS || WEXITSTATUS w.s == EXIT_FAILURE) then
      ⟨[.waitpid i w.r], .exited (WEXITSTATUS w.s)⟩
    else if WIFEXITED w.s || WIFSIGNALED w.s then
      match reexec argv os nx with
      | (evs, true) => ⟨.waitpid i w.r :: restore_prev ++ evs, .replaced⟩
      | (evs, false) =>
        let j := os.fork nf
        if j ≠ 0 then
          (rewait argv os ws j (nf + 1) (nx + 1)).after
            (.waitpid i w.r :: restore_prev ++ evs ++ .fork j :: parent_setup)
        else
          ⟨.waitpid i w.r :: restore_prev ++ evs ++ [.fork j, .prctl_pdeathsig], .returned⟩
    else (rewait argv os ws i nf nx).after [.waitpid i w.r]

/-- The function `reincarnate_protect(argv)`, entered at `refork` (line 387). -/
def reincarnate_protect (argv : Option (List String)) (os : SupervisorOS)
    (waits : List WaitAnswer) : Run :=
  let i := os.fork 0
  if i ≠ 0 then (rewait argv os waits i 1 0).after (.fork i :: parent_setup)
  else ⟨[.fork i, .prctl_pdeathsig], .returned⟩

/-- Number of `fork()` calls in a trace. -/
def forkCount (t : List Event) : Nat :=
  t.countP fun e => match e with
    | .fork _ => true
    | _ => false

/-- Number of `exec` attempts in a trace. -/
def execCount (t : List Event) : Nat :=
  t.countP fun e => match e with
    | .execv _ => true
    | .execvp _ => true
    | _ => false

/-- A worker status after which the supervisor restarts: killed by a signal,
or a normal exit whose code is neither 0 nor 1. -/
def crashed (s : WaitStatus) : Bool :=
  WIFSIGNALED s || (WIFEXITED s && WEXITSTATUS s != 0 && WEXITSTATUS s != 1)

/-- The answers of `waitpid` when the workers forked from the `k`-th fork on
are reaped one after the other with the given statuses. -/
def reapedInTurn (os : SupervisorOS) : Nat → List WaitStatus → List WaitAnswer
  | _, [] => []
  | k, s :: ss => ⟨os.fork k, 0, s⟩ :: reapedInTurn os (k + 1) ss

/-! ## Signal handlers -/

/-- Lines 87-94: `handle_SIGILL` asks the core for an immediate shutdown. -/
def handle_SIGILL (_sig : Nat) : List Event :=
  [.session_ctl .SCSC_SHUTDOWN 0]

/-- Lines 96-103: `handle_SIGTERM` asks the core for an elegant shutdown. -/
def handle_SIGTERM (_sig : Nat) : List Event :=
  [.session_ctl .SCSC_SHUTDOWN_ELEGANT 0]

/-- Lines 374-378: the supervisor forwards the signal to the tracked child. -/
def reincarnate_handle_sigterm (reincarnate_child : Int) (sig : Nat) : List Event :=
  if sig = 0 then []
  else if reincarnate_child ≠ 0 then [.kill reincarnate_child sig]
  else []

/-- Disposition of one signal in the process. -/
inductive Disp where
  /-- What the process had when `main` started. -/
  | inherited
  | dfl
  | handler (h : Handler)
  deriving DecidableEq, Repr

/-- Signal dispositions of the process: the current one for each signal and
the one saved by `sigaction` (`sa4_prev`, `sa15_prev`, `sa17_prev`). -/
structure SigState where
  cur : Nat → Disp
  saved : Nat → Disp

/-- Dispositions at the start of `main`. -/
def SigState.start : SigState :=
  ⟨fun _ => .inherited, fun _ => .inherited⟩

/-- Effect of one action on the dispositions. -/
def SigState.step (st : SigState) : Event → SigState
  | .signal sig h => ⟨fun s => if s = sig then .handler h else st.cur s, st.saved⟩
  | .sigaction sig (.handler h) =>
    ⟨fun s => if s = sig then .handler h else st.cur s,
     fun s => if s = sig then st.cur sig else st.saved s⟩
  | .sigaction sig .dfl =>
    ⟨fun s => if s = sig then .dfl else st.cur s,
     fun s => if s = sig then st.cur sig else st.saved s⟩
  | .sigaction sig .prev => ⟨fun s => if s = sig then st.saved sig else st.cur s, st.saved⟩
  | _ => st

/-- Dispositions after a trace. -/
def dispositions (t : List Event) : SigState :=
  t.foldl SigState.step SigState.start

/-- Delivery of signal `sig` to a process with dispositions `st`: the actions
of the installed handler of switch.c, `none` when no such handler is installed. -/
def deliver (st : SigState) (reincarnate_child : Int) (sig : Nat) : Option (List Event) :=
  match st.cur sig with
  | .handler .handle_SIGILL => some (handle_SIGILL sig)
  | .handler .handle_SIGTERM => some (handle_SIGTERM sig)
  | .handler .reincarnate_handle_sigterm => some (reincarnate_handle_sigterm reincarnate_child sig)
  | _ => none

/-- Lines 1212-1218 of `main`. -/
def main_signals (elegant_term : Bool) : List Event :=
  [ .signal SIGILL .handle_SIGILL,
    if elegant_term then .signal SIGTERM .handle_SIGTERM else .signal SIGTERM .handle_SIGILL ]

/-! ## Decimal text (`%d`), over bytes -/

/-- The C library's `isspace` in the C locale. -/
def isspace (c : Nat) : Bool :=
  c == 32 || (9 ≤ c && c ≤ 13)

/-- The C library's `isdigit`. -/
def isdigit (c : Nat) : Bool :=
  48 ≤ c && c ≤ 57

/-- Decimal digits of `n`, most significant first; `fuel` bounds their number. -/
def fmt_u : Nat → Nat → List Nat
  | 0, _ => []
  | fuel + 1, n => if n < 10 then [48 + n] else fmt_u fuel (n / 10) ++ [48 + n % 10]

/-- Output of the conversion `%d`: an optional minus sign (byte 45) and the digits. -/
def fmt_d (v : Int) : List Nat :=
  if v < 0 then 45 :: fmt_u (v.natAbs + 1) v.natAbs else fmt_u (v.natAbs + 1) v.natAbs

/-- Value of a run of digits. -/
def digits_value (cs : List Nat) : Nat :=
  cs.foldl (fun a c => 10 * a + (c - 48)) 0

/-- An optional sign, byte 45 for `-` or 43 for `+`: whether the value is
negated, and the bytes after the sign. -/
def scan_sign (cs : List Nat) : Bool × List Nat :=
  match cs with
  | [] => (false, [])
  | c :: t => if c = 45 then (true, t) else if c = 43 then (false, t) else (false, c :: t)

/-- Input side of `%d` (and of `atoi`): white space is skipped, then an
optional sign and at least one digit are read; `none` when no digit is found. -/
def scan_decimal (cs : List Nat) : Option Int :=
  if ((scan_sign (cs.dropWhile isspace)).2.takeWhile isdigit).isEmpty then none
  else if (scan_sign (cs.dropWhile isspace)).1 then
    some (- (digits_value ((scan_sign (cs.dropWhile isspace)).2.takeWhile isdigit) : Int))
  else some (digits_value ((scan_sign (cs.dropWhile isspace)).2.takeWhile isdigit) : Int)

/-- Conversion of a scanned value to `int`: `strtol` clamps to the range of
`long` (64 bits) and the result is truncated to 32 bits, as glibc does. -/
def to_int (v : Int) : Int :=
  let l : Int := if v > 2 ^ 63 - 1 then 2 ^ 63 - 1 else if v < -(2 ^ 63) then -(2 ^ 63) else v
  (l + 2 ^ 31) % 2 ^ 32 - 2 ^ 31

/-- The C library's `atoi`. -/
def atoi (cs : List Nat) : Int :=
  match scan_decimal cs with
  | none => 0
  | some v => to_int v

/-- The call `fscanf(f, "%d", &pid)` on a stream holding `cs`, with `pid`
holding `old`: the return value and the new content of `pid`. The return value
is 1 after a conversion, `EOF` (-1) when the input ends before any digit,
and 0 on a matching failure. -/
def fscanf_d (cs : List Nat) (old : Int) : Int × Int :=
  match scan_decimal cs with
  | some v => (1, to_int v)
  | none => if cs.dropWhile isspace = [] then (-1, old) else (0, old)

/-- The C library's `strlen` on a buffer: the bytes before the first NUL. -/
def strlen (buf : List Nat) : Nat :=
  (buf.takeWhile (fun c => c != 0)).length

/-- A buffer of `size` bytes, zeroed, after `bytes` were stored at its start. -/
def stored (size : Nat) (bytes : List Nat) : List Nat :=
  bytes.take size ++ List.replicate (size - (bytes.take size).length) 0

/-- The call `switch_snprintf(buf, size, "%d", v)` on a zeroed buffer: at most
`size - 1` bytes of the text, then NUL. -/
def snprintf_d (size : Nat) (v : Int) : List Nat :=
  stored size ((fmt_d v).take (size - 1))

/-! ## check_fd and daemonize -/

/-- What the kernel answers in one call of `check_fd`: the return value `s` of
`poll`, whether `revents` has `POLLIN`, the return value `i` of `read` and the
content `v` of `r` after a `read` that stored bytes. -/
structure PollAnswer where
  s : Int
  pollin : Bool
  i : Int
  v : Int
  deriving DecidableEq, Repr

/-- Lines 237-259: `check_fd(fd, ms)`, its actions and its return value `r`. -/
def check_fd (a : PollAnswer) : List Event × Int :=
  if a.s = 0 ∨ a.s = -1 then ([.poll a.s], a.s)
  else if a.pollin then
    if a.i > -1 then
      ([.poll a.s, .read a.i, .echo (if a.i > 0 then a.v else -1)], if a.i > 0 then a.v else -1)
    else ([.poll a.s, .read a.i], -1)
  else ([.poll a.s], -1)

/-- The kernel as seen by `daemonize`. -/
structure DaemonOS where
  /-- Return value of `fork()` at line 271. -/
  fork1 : Int
  /-- Return value of `setsid()` at line 284. -/
  setsid1 : Int
  /-- Return value of `switch_fork()` at line 290. -/
  fork2 : Int
  /-- Result of `getenv("FREESWITCH_BG_TIMEOUT")`, `none` for NULL. -/
  bg_timeout : Option (List Nat)
  /-- Answer to the `k`-th call of `check_fd`. -/
  polls : Nat → PollAnswer
  /-- Return value of the `k`-th `open("/dev/null", ...)`. -/
  devnull : Nat → Int

/-- Lines 266 and 311-316: the initial value of `unsigned int sanity`. -/
def initial_sanity (env : Option (List Nat)) : Nat :=
  match env with
  | none => 60
  | some o => if atoi o > 0 then (atoi o).toNat % 2 ^ 32 else 60

/-- The value of `--sanity` for `unsigned int sanity` (32 bits): one less,
and `UINT_MAX` after 0. -/
def decremented (sanity : Nat) : Nat :=
  if sanity = 0 then 4294967295 else sanity - 1

/-- One pass through the body of the `do` loop, lines 319-323, with the
answer to the `k`-th poll. -/
def poll_round (polls : Nat → PollAnswer) (k : Nat) : List Event × Int :=
  ((check_fd (polls k)).1 ++ (if (check_fd (polls k)).2 = 0 then [.stdout .waiting] else []),
   (check_fd (polls k)).2)

/-- The loop `do ... while (--sanity && system_ready == 0)`, lines 318-325.
The first argument is the value `--sanity` takes after the coming pass, the
second the number of polls done before; the result is the actions and the
final `system_ready`. -/
def ready_loop (polls : Nat → PollAnswer) : Nat → Nat → List Event × Int
  | 0, k => poll_round polls k
  | n + 1, k =>
    if (poll_round polls k).2 = 0 then
      ((poll_round polls k).1 ++ (ready_loop polls n (k + 1)).1, (ready_loop polls n (k + 1)).2)
    else poll_round polls k

/-- Lines 306-342 for `fds` given: the parent of `switch_fork()` waits for
the worker `pid` to report. -/
def wait_for_ready (os : DaemonOS) (pid : Int) : Run :=
  let polled := ready_loop os.polls (decremented (initial_sanity os.bg_timeout)) 0
  if polled.2 < 0 then
    ⟨[.close_write, .getenv_bg_timeout] ++ polled.1 ++
      [.shutdown_read, .close_read, .stdout .error_starting, .kill pid SIGKILL],
     .exited EXIT_FAILURE⟩
  else
    ⟨[.close_write, .getenv_bg_timeout] ++ polled.1 ++
      [.shutdown_read, .close_read, .stdout .system_ready],
     .exited EXIT_SUCCESS⟩

/-- One of the three redirections of lines 350-369: `fd` is what `open`
returned, `target` the standard descriptor; `none` when the assertion fails. -/
def redirect_one (fd target : Int) : Option (List Event) :=
  if fd < 0 then none
  else if fd ≠ target then some [.open_devnull fd, .dup2 fd target, .close fd]
  else some [.open_devnull fd]

/-- Lines 349-370: the worker redirects descriptors 0, 1, 2 to the null device. -/
def redirect_std (devnull : Nat → Int) : Run :=
  match redirect_one (devnull 0) 0 with
  | none => ⟨[.open_devnull (devnull 0)], .aborted⟩
  | some e0 =>
    match redirect_one (devnull 1) 1 with
    | none => ⟨e0 ++ [.open_devnull (devnull 1)], .aborted⟩
    | some e1 =>
      match redirect_one (devnull 2) 2 with
      | none => ⟨e0 ++ e1 ++ [.open_devnull (devnull 2)], .aborted⟩
      | some e2 => ⟨e0 ++ e1 ++ e2, .returned⟩

/-- Lines 290-371: `switch_fork()` and what follows. -/
def daemonize_fork2 (fds : Bool) (os : DaemonOS) : Run :=
  if os.fork2 = 0 then
    (redirect_std os.devnull).after
      (.fork os.fork2 :: (if fds then [.close_read, .setsid] else []))
  else if os.fork2 = -1 then ⟨[.fork os.fork2, .stderr .fork2_error], .exited EXIT_SUCCESS⟩
  else if fds then (wait_for_ready os os.fork2).after [.fork os.fork2, .stderr .backgrounding]
  else ⟨[.fork os.fork2, .stderr .backgrounding], .exited EXIT_SUCCESS⟩

/-- Lines 262-371: `daemonize(fds)`; `fds = true` stands for a non-null pointer. -/
def daemonize (fds : Bool) (os : DaemonOS) : Run :=
  if fds then daemonize_fork2 fds os
  else if os.fork1 = 0 then
    if os.setsid1 < 0 then
      ⟨[.fork os.fork1, .setsid, .stderr .setsid_error], .exited EXIT_SUCCESS⟩
    else (daemonize_fork2 fds os).after [.fork os.fork1, .setsid]
  else if os.fork1 = -1 then ⟨[.fork os.fork1, .stderr .fork_error], .exited EXIT_SUCCESS⟩
  else ⟨[.fork os.fork1], .exited EXIT_SUCCESS⟩

/-! ## The pid file and main -/

/-- A run together with the pid file it leaves: `none` when the file does
not exist, otherwise its bytes. -/
structure MainRun where
  run : Run
  pidfile : Option (List Nat)
  deriving DecidableEq, Repr

/-- The kernel as seen by the pid-file sequence of `main`. -/
structure PidFileOS where
  /-- Return value of `getpid()`. -/
  getpid : Int
  /-- Whether an existing pid file can be opened for reading. -/
  readable : Bool
  /-- Whether the pid file can be opened (created, truncated) for writing. -/
  writable : Bool
  /-- Whether the non-blocking exclusive lock is granted. -/
  lock_free : Bool

/-- Lines 1321-1326: the content of `old_pid_buffer` (32 bytes, zeroed) after
the attempt to read at most 31 bytes of the existing pid file. -/
def old_pid_buffer (os : PidFileOS) (file : Option (List Nat)) : List Nat :=
  match file with
  | some content => if os.readable then stored 32 (content.take 31) else stored 32 []
  | none => stored 32 []

/-- Actions of lines 1305-1326. -/
def pid_file_read (os : PidFileOS) (file : Option (List Nat)) : List Event :=
  [.set_globals, .getpid os.getpid, .dir_make] ++
    match file with
    | some content =>
      if os.readable then [.file_open_read true, .file_read (content.take 31), .file_close]
      else [.file_open_read false]
    | none => [.file_open_read false]

/-- Lines 1305-1345 of `main`: the pid-file sequence. The ending `returned`
means that `main` goes on to the engine initialisation. Opening with
`SWITCH_FOPEN_TRUNCATE` empties the file; a write puts its bytes at offset 0
of the emptied file. -/
def pid_file_sequence (os : PidFileOS) (file : Option (List Nat)) : MainRun :=
  if ¬ os.writable then
    ⟨⟨pid_file_read os file ++ [.file_open_write false, .stderr .cannot_open_pid], .ret 255⟩, file⟩
  else if ¬ os.lock_free then
    if strlen (old_pid_buffer os file) ≠ 0 then
      ⟨⟨pid_file_read os file ++
          [.file_open_write true, .file_lock false, .stderr .cannot_lock_pid,
           .file_write ((old_pid_buffer os file).take (strlen (old_pid_buffer os file)))],
        .ret 255⟩,
       some ((old_pid_buffer os file).take (strlen (old_pid_buffer os file)))⟩
    else
      ⟨⟨pid_file_read os file ++
          [.file_open_write true, .file_lock false, .stderr .cannot_lock_pid], .ret 255⟩,
       some []⟩
  else
    ⟨⟨pid_file_read os file ++
        [.file_open_write true, .file_lock true,
         .file_write ((snprintf_d 32 os.getpid).take (strlen (snprintf_d 32 os.getpid)))],
      .returned⟩,
     some ((snprintf_d 32 os.getpid).take (strlen (snprintf_d 32 os.getpid)))⟩

/-- What argument parsing leaves in the locals of `main`. -/
structure Opts where
  nf : Bool
  do_wait : Bool
  nc : Bool
  elegant_term : Bool
  reincarnate : Bool
  reincarnate_reexec : Bool
  priority : Int
  /-- Whether `runas_user` or `runas_group` is set. -/
  runas : Bool
  argv : List String

/-- The kernel and the engine as seen by `main` after argument parsing. -/
structure MainOS where
  /-- Return value of `pipe(fds)`. -/
  pipe : Int
  daemon : DaemonOS
  sup : SupervisorOS
  waits : List WaitAnswer
  /-- Return value of `switch_core_set_process_privileges()`. -/
  privileges : Int
  /-- Return value of `change_user_group`. -/
  user_group : Int
  pidf : PidFileOS
  /-- Whether `switch_core_init_and_modload` reports success. -/
  init_ok : Bool
  /-- Return value of `write(fds[1], &v, sizeof(v))`. -/
  ready_write : Int

/-- Run `k` after `r` when `r` returned to its caller; otherwise `r` is the
whole run. -/
def Run.andThen (r : Run) (k : Run) : Run :=
  if r.ending = .returned then k.after r.trace else r

/-- Lines 1221-1231: the readiness pipe. `exit(-1)` gives exit status 255. -/
def main_pipe (o : Opts) (os : MainOS) : Run :=
  if o.do_wait then
    if os.pipe ≠ 0 then ⟨[.pipe os.pipe, .stderr .system_error], .exited 255⟩
    else ⟨[.pipe os.pipe], .returned⟩
  else ⟨[], .returned⟩

/-- Lines 1233-1243: backgrounding. -/
def main_daemonize (o : Opts) (os : MainOS) : Run :=
  if o.nc && !o.nf then daemonize o.do_wait os.daemon else ⟨[], .returned⟩

/-- Lines 1246-1248: the supervisor. -/
def main_reincarnate (o : Opts) (os : MainOS) : Run :=
  if o.reincarnate then
    reincarnate_protect (if o.reincarnate_reexec then some o.argv else none) os.sup os.waits
  else ⟨[], .returned⟩

/-- Lines 1251-1285: privileges, priority, resource limits, user and group. -/
def main_privileges (o : Opts) (os : MainOS) : Run :=
  if os.privileges < 0 then ⟨[.set_process_privileges os.privileges], .ret 255⟩
  else if o.runas then
    if os.user_group < 0 then
      ⟨[.set_process_privileges os.privileges, .set_priority o.priority, .setrlimits,
        .change_user_group os.user_group, .stderr .switch_user_failed], .ret 255⟩
    else
      ⟨[.set_process_privileges os.privileges, .set_priority o.priority, .setrlimits,
        .change_user_group os.user_group], .returned⟩
  else
    ⟨[.set_process_privileges os.privileges, .set_priority o.priority, .setrlimits], .returned⟩

/-- Lines 1212-1285 of `main`, all that comes before the pid file (64-bit
build: the stack-size block of lines 1181-1210 is compiled out). -/
def main_before_pidfile (o : Opts) (os : MainOS) : Run :=
  (((Run.mk (main_signals o.elegant_term) .returned).andThen (main_pipe o os)).andThen
    (main_daemonize o os) |>.andThen (main_reincarnate o os)).andThen (main_privileges o os)

/-- Lines 1347-1374: engine initialisation, the readiness value, the loop. -/
def main_engine (o : Opts) (os : MainOS) : Run :=
  if ¬ os.init_ok then ⟨[.init_and_modload false, .stderr .engine_init_failed], .ret 255⟩
  else
    ⟨[.init_and_modload true] ++
      (if o.do_wait then
        (if os.ready_write < 0 then [.write_ready 1 os.ready_write, .stderr .system_error]
         else [.write_ready 1 os.ready_write, .read_ack]) ++ [.shutdown_write, .close_write]
       else []) ++
      (if o.nc && o.nf then [.signal SIGINT .handle_SIGILL] else []) ++ [.runtime_loop],
     .running⟩

/-- The function `main` from line 1212 (after argument parsing) to the call
of `switch_core_runtime_loop`, with the pid file before and after. -/
def main (o : Opts) (os : MainOS) (file : Option (List Nat)) : MainRun :=
  if (main_before_pidfile o os).ending = .returned then
    ⟨((pid_file_sequence os.pidf file).run.andThen (main_engine o os)).after
        (main_before_pidfile o os).trace,
     (pid_file_sequence os.pidf file).pidfile⟩
  else ⟨main_before_pidfile o os, file⟩

/-! ## freeswitch_kill_background -/

/-- Lines 107-167 (POSIX branch): `freeswitch_kill_background()`. `readable`
tells whether `fopen(path, "r")` succeeds on an existing file. -/
def freeswitch_kill_background (readable : Bool) (file : Option (List Nat)) : MainRun :=
  match file with
  | none => ⟨⟨[.set_globals, .fopen false, .stderr .cannot_open_pid], .ret 255⟩, file⟩
  | some content =>
    if ¬ readable then ⟨⟨[.set_globals, .fopen false, .stderr .cannot_open_pid], .ret 255⟩, file⟩
    else
      ⟨⟨[.set_globals, .fopen true, .fscanf (fscanf_d content 0).1] ++
          (if (fscanf_d content 0).1 ≠ 1 then [.log_error .unable_to_get_pid] else []) ++
          (if (fscanf_d content 0).2 > 0 then
            [.stderr .killing, .kill (fscanf_d content 0).2 SIGTERM] else []) ++
          [.fclose],
        .ret 0⟩, file⟩

/-! ## Observations on traces -/

/-- The `kill` calls of a trace: target and signal, in order. -/
def kills (t : List Event) : List (Int × Nat) :=
  t.filterMap fun e => match e with
    | .kill pid sig => some (pid, sig)
    | _ => none

/-- Number of times a message was written to standard output. -/
def printed (m : Msg) (t : List Event) : Nat :=
  t.count (.stdout m)

/-- Number of `check_fd` calls (one `poll` each) in a trace. -/
def pollCount (t : List Event) : Nat :=
  t.countP fun e => match e with
    | .poll _ => true
    | _ => false

/-- Whether the engine initialisation was called in a trace. -/
def initCalled (t : List Event) : Bool :=
  t.any fun e => match e with
    | .init_and_modload _ => true
    | _ => false

/-- Whether the lock on the pid file was requested and refused in a trace. -/
def lockRefused (t : List Event) : Bool :=
  t.any fun e => match e with
    | .file_lock false => true
    | _ => false

/-- Bytes of an ASCII text. -/
def bytes (s : String) : List Nat :=
  s.toList.map Char.toNat

/-- Actions on the pid-file lock and on the engine initialisation. -/
def pidOrEngine : Event → Bool
  | .file_lock _ => true
  | .init_and_modload _ => true
  | _ => false

/-- Whether the lock on the pid file was requested and granted in a trace. -/
def lockGranted (t : List Event) : Bool :=
  t.any fun e => match e with
    | .file_lock true => true
    | _ => false

/-- An answer to `check_fd` that is a failure: `poll` failed, or it reported
something other than readable data, or `read` failed or met end of file, or
the value read is negative. -/
def failure_answer (a : PollAnswer) : Bool :=
  a.s == -1 || (a.s != 0 && (!a.pollin || decide (a.i ≤ 0) || decide (a.v < 0)))

/-- Calls that change a signal disposition. -/
def isSigEvent : Event → Bool
  | .signal _ _ => true
  | .sigaction _ _ => true
  | _ => false

/-- Actions on the pid-file lock, on the engine initialisation, or on a
signal disposition. -/
def lockInitSig : Event → Bool
  | .file_lock _ => true
  | .init_and_modload _ => true
  | .signal _ _ => true
  | .sigaction _ _ => true
  | _ => false

/-- The routing of SIGILL and SIGTERM that `main` sets up: `handle_SIGILL`
for SIGILL, and for SIGTERM `handle_SIGTERM` under `-elegant-term`,
`handle_SIGILL` otherwise. -/
def Routes (elegant_term : Bool) (st : SigState) : Prop :=
  st.cur SIGILL = .handler .handle_SIGILL ∧
  st.cur SIGTERM = .handler (if elegant_term then .handle_SIGTERM else .handle_SIGILL)

/-- A phase keeps the routing: when it returns to `main`, the routing that
held before it holds after it. -/
def KeepsRoutes (r : Run) : Prop :=
  ∀ (e : Bool) (st : SigState), Routes e st → r.ending = .returned →
    Routes e (r.trace.foldl SigState.step st)

/-- A run from the start of the process sets up the routing: when it returns
to `main`, the routing holds. -/
def Establishes (e : Bool) (r : Run) : Prop :=
  r.ending = .returned → Routes e (dispositions r.trace)

/-! ## Sample inputs -/

/-- A kernel for `daemonize` in which the forks succeed in the child and no
poll reports anything. -/
def quietDaemon : DaemonOS :=
  ⟨0, 0, 0, none, fun _ => ⟨0, false, 0, 0⟩, fun k => k⟩

/-- A foreground start (`freeswitch -nf`). -/
def foreground : Opts :=
  ⟨true, false, false, false, false, false, 0, false, ["freeswitch", "-nf"]⟩

/-- A kernel for `main` run as process 4322: every call succeeds, the lock
on the pid file is free or not as told. -/
def plainOS (lock_free : Bool) : MainOS :=
  ⟨0, quietDaemon, ⟨fun _ => 0, fun _ => false, fun _ => false⟩, [], 0, 0,
   ⟨4322, true, true, lock_free⟩, true, 4⟩

/-- A kernel for `main` run as process 4322 when another process holds the
lock and the pid file cannot be opened for reading (it can for writing). -/
def unreadableOS : MainOS :=
  ⟨0, quietDaemon, ⟨fun _ => 0, fun _ => false, fun _ => false⟩, [], 0, 0,
   ⟨4322, false, true, false⟩, true, 4⟩

/-- A kernel for `daemonize` seen by the parent of worker 77 when the worker
never reports: every poll times out. -/
def silentWorker : DaemonOS :=
  ⟨0, 0, 77, none, fun _ => ⟨0, false, 0, 0⟩, fun k => k⟩

/-- A kernel for `daemonize` seen by the parent of worker 77 when the first
poll times out twice and the third delivers the value 1. -/
def readyWorker : DaemonOS :=
  ⟨0, 0, 77, none, fun k => if k < 2 then ⟨0, false, 0, 0⟩ else ⟨1, true, 4, 1⟩, fun k => k⟩

/-- A kernel for `daemonize` seen by the parent of worker 77 when the first
poll delivers the value 0 and the second the value 1. -/
def zeroThenReady : DaemonOS :=
  ⟨0, 0, 77, none, fun k => if k = 0 then ⟨1, true, 4, 0⟩ else ⟨1, true, 4, 1⟩, fun k => k⟩

/-- A kernel for `daemonize` seen by the parent of worker 77 when the first
poll times out and the second finds the pipe closed by the worker. -/
def deadWorker : DaemonOS :=
  ⟨0, 0, 77, none, fun k => if k = 0 then ⟨0, false, 0, 0⟩ else ⟨1, false, 0, 0⟩, fun k => k⟩

/-! ## Restart strategies -/

/-- One attempt of the supervisor to bring the service back: an `execv`, an
`execvp` (with whether it succeeded) or a `fork()` (with its return value). -/
inductive Attempt where
  | execv (ok : Bool)
  | execvp (ok : Bool)
  | fork (ret : Int)
  deriving DecidableEq, Repr

/-- The restart attempts of a trace, in order. -/
def restartAttempts (t : List Event) : List Attempt :=
  t.filterMap fun e => match e with
    | .execv ok => some (.execv ok)
    | .execvp ok => some (.execvp ok)
    | .fork r => some (.fork r)
    | _ => none

/-- Whether re-exec on restart was requested: `argv` is given and `argv[0]`
is not null. -/
def reexec_requested (argv : Option (List String)) : Bool :=
  match argv with
  | some (_ :: _) => true
  | _ => false

/-- A restart strategy, in the words of the spec. -/
inductive Strategy where
  | execv
  | execvp
  | fork
  deriving DecidableEq, Repr

/-- Following the spec's words: the ordered list of restart strategies, one
execution strategy, a second fallback strategy, then the fork loop; the fork
loop alone when re-exec was not requested. -/
def spec_restart_strategies (requested : Bool) : List Strategy :=
  if requested then [.execv, .execvp, .fork] else [.fork]

/-- Following the spec's words: one strategy is tried and returns success or
failure. A fork ends the sequence whatever it returns. -/
def spec_try (os : SupervisorOS) (nf nx : Nat) : Strategy → Attempt × Bool
  | .execv => (.execv (os.execv nx), os.execv nx)
  | .execvp => (.execvp (os.execvp nx), os.execvp nx)
  | .fork => (.fork (os.fork nf), true)

/-- Following the spec's words: the strategies are tried in sequence until
one succeeds; the result is the attempts made. -/
def spec_try_in_sequence (os : SupervisorOS) (nf nx : Nat) : List Strategy → List Attempt
  | [] => []
  | s :: rest =>
    if (spec_try os nf nx s).2 then [(spec_try os nf nx s).1]
    else (spec_try os nf nx s).1 :: spec_try_in_sequence os nf nx rest

/-! ## Observations on daemonize -/

/-- The return values of the `fork()` calls of a trace, in order. -/
def forkResults (t : List Event) : List Int :=
  t.filterMap fun e => match e with
    | .fork r => some r
    | _ => none

/-- Whether a trace enters the worker path of `daemonize`: the redirection of
the standard descriptors. -/
def workerPath (t : List Event) : Bool :=
  t.any fun e => match e with
    | .open_devnull _ => true
    | .dup2 _ _ => true
    | .close _ => true
    | _ => false

/-- A kernel for `daemonize` in which the first fork fails. -/
def firstForkFails : DaemonOS :=
  ⟨-1, 0, 0, none, fun _ => ⟨0, false, 0, 0⟩, fun k => k⟩

/-- A kernel for `daemonize` in which the first fork and `setsid` succeed (in
the child) and `switch_fork()` fails. -/
def secondForkFails : DaemonOS :=
  ⟨0, 0, -1, none, fun _ => ⟨0, false, 0, 0⟩, fun k => k⟩

/-! ## Startup order -/

/-- Actions that only the later phases of `main` perform: its `signal()`
calls, the privilege and priority settings, the pid-file sequence and the
engine. The pipe, `daemonize` and `reincarnate_protect` perform none of them. -/
def laterEvent : Event → Bool
  | .signal _ _ => true
  | .set_process_privileges _ => true
  | .set_priority _ => true
  | .setrlimits => true
  | .change_user_group _ => true
  | .set_globals => true
  | .getpid _ => true
  | .dir_make => true
  | .file_open_read _ => true
  | .file_read _ => true
  | .file_close => true
  | .file_open_write _ => true
  | .file_lock _ => true
  | .file_write _ => true
  | .init_and_modload _ => true
  | .write_ready _ _ => true
  | .read_ack => true
  | .shutdown_write => true
  | .runtime_loop => true
  | _ => false

/-- The values written to the readiness channel in a trace, in order. -/
def readyWrites (t : List Event) : List Int :=
  t.filterMap fun e => match e with
    | .write_ready v _ => some v
    | _ => none

/-- The startup step an action belongs to, in the order of the code: 0 the
SIGILL/SIGTERM handlers of `main`, 1 the detachment (`fork`, `setsid`), 2 the
privilege and priority settings, 3 the lock on the pid file, 4 the engine
initialisation; `none` for the other actions. -/
def startupStage : Event → Option Nat
  | .signal sig _ => if sig = SIGILL ∨ sig = SIGTERM then some 0 else none
  | .fork _ => some 1
  | .setsid => some 1
  | .set_process_privileges _ => some 2
  | .set_priority _ => some 2
  | .setrlimits => some 2
  | .change_user_group _ => some 2
  | .file_lock _ => some 3
  | .init_and_modload _ => some 4
  | _ => none

/-- The startup step an action belongs to, numbered in the order of the spec:
0 the lock on the pid file, 1 the detachment, 2 the privilege and priority
settings, 3 the SIGILL/SIGTERM handlers, 4 the engine initialisation. -/
def specStage : Event → Option Nat
  | .file_lock _ => some 0
  | .fork _ => some 1
  | .setsid => some 1
  | .set_process_privileges _ => some 2
  | .set_priority _ => some 2
  | .setrlimits => some 2
  | .change_user_group _ => some 2
  | .signal sig _ => if sig = SIGILL ∨ sig = SIGTERM then some 3 else none
  | .init_and_modload _ => some 4
  | _ => none

/-- A background start with readiness sync (`freeswitch -ncwait`). -/
def ncwait : Opts :=
  ⟨false, true, true, false, false, false, 0, false, ["freeswitch", "-ncwait"]⟩

/-- A kernel for `main` run as process 4322 in which every call succeeds and
the engine initialisation succeeds or not as told. -/
def engineOS (init_ok : Bool) : MainOS :=
  ⟨0, quietDaemon, ⟨fun _ => 0, fun _ => false, fun _ => false⟩, [], 0, 0,
   ⟨4322, true, true, true⟩, init_ok, 4⟩

/-! ## Descriptor table -/

/-- What an open descriptor refers to. -/
inductive FileRef where
  | null_device
  | other (id : Nat)
  deriving DecidableEq, Repr

/-- The descriptor table of the process: `slot fd` is `none` for a closed
descriptor; only descriptors below `size` can be open. -/
structure FdTable where
  slot : Nat → Option FileRef
  size : Nat

/-- The lowest closed descriptor among the `count` descriptors from `start`. -/
def lowestFree (slot : Nat → Option FileRef) : Nat → Nat → Option Nat
  | 0, _ => none
  | count + 1, start =>
    if (slot start).isNone then some start else lowestFree slot count (start + 1)

/-- The return value of `open("/dev/null", ...)`: the lowest free descriptor,
or -1 when the table is full. -/
def open_result (tab : FdTable) : Int :=
  match lowestFree tab.slot tab.size 0 with
  | some fd => fd
  | none => -1

/-- Effect of one action on the descriptor table: an `open` that returned
`fd ≥ 0` makes `fd` refer to the null device; `dup2(fd, target)` makes
`target` refer to what `fd` refers to (it fails when `fd` is closed or
`target` is out of range); `close(fd)` closes `fd`. -/
def FdTable.step (tab : FdTable) : Event → FdTable
  | .open_devnull fd =>
    if fd < 0 then tab
    else ⟨fun d => if d = fd.toNat then some .null_device else tab.slot d, tab.size⟩
  | .dup2 fd target =>
    if fd < 0 ∨ target < 0 ∨ (tab.slot fd.toNat).isNone ∨ tab.size ≤ target.toNat then tab
    else ⟨fun d => if d = target.toNat then tab.slot fd.toNat else tab.slot d, tab.size⟩
  | .close fd =>
    if fd < 0 then tab else ⟨fun d => if d = fd.toNat then none else tab.slot d, tab.size⟩
  | _ => tab

/-- The descriptor table after a trace. -/
def FdTable.apply (tab : FdTable) (t : List Event) : FdTable :=
  t.foldl FdTable.step tab

/-- The answers of the kernel to the three `open("/dev/null", ...)` calls of
`daemonize` when the worker starts with the table `tab`: each is the lowest
descriptor free at the time of the call. -/
def kernel_devnull (tab : FdTable) : Nat → Int
  | 0 => open_result tab
  | 1 => open_result (tab.apply ((redirect_one (open_result tab) 0).getD []))
  | 2 =>
    open_result
      ((tab.apply ((redirect_one (open_result tab) 0).getD [])).apply
        ((redirect_one
          (open_result (tab.apply ((redirect_one (open_result tab) 0).getD []))) 1).getD []))
  | _ => -1

/-- A table of 16 descriptors in which 0 and 1 are open on a terminal, 2 is
closed, and 3 and 5 are open on other files. -/
def sampleTable : FdTable :=
  ⟨fun d => if d = 0 ∨ d = 1 then some (.other 1) else if d = 3 then some (.other 2)
    else if d = 5 then some (.other 3) else none, 16⟩

/-! ## Argument parsing in main -/

/-- The options of `main` that take a directory or file name, lines 903-1147. -/
inductive DirKind where
  | conf | mod | log | run | db | scripts | htdocs | base | temp | storage | cache
  | recordings | grammar | certs | sounds | cfgname
  deriving DecidableEq, Repr

/-- The option text of each directory option. -/
def dir_option (a : String) : Option DirKind :=
  if a = "-conf" then some .conf
  else if a = "-mod" then some .mod
  else if a = "-log" then some .log
  else if a = "-run" then some .run
  else if a = "-db" then some .db
  else if a = "-scripts" then some .scripts
  else if a = "-htdocs" then some .htdocs
  else if a = "-base" then some .base
  else if a = "-temp" then some .temp
  else if a = "-storage" then some .storage
  else if a = "-cache" then some .cache
  else if a = "-recordings" then some .recordings
  else if a = "-grammar" then some .grammar
  else if a = "-certs" then some .certs
  else if a = "-sounds" then some .sounds
  else if a = "-cfgname" then some .cfgname
  else none

/-- The locals and globals of `main` that argument parsing sets. The bits of
`flags` are kept as Booleans. -/
structure ParseState where
  nf : Bool
  do_wait : Bool
  nc : Bool
  elegant_term : Bool
  reincarnate : Bool
  reincarnate_reexec : Bool
  priority : Int
  runas_user : Option String
  runas_group : Option String
  do_kill : Bool
  core : Bool
  use_sql : Bool
  use_auto_nat : Bool
  use_nat_mapping : Bool
  calibrate_clock : Bool
  use_clock_rt : Bool
  heavy_timing : Bool
  vg : Bool
  alt_dirs : Nat
  alt_base : Bool
  log_set : Bool
  run_set : Bool
  dirs : DirKind → Option String

/-- The values of lines 599-643 before the loop: `nc` is set when the program
name contains `freeswitchd` (line 668). -/
def ParseState.initial (argv0 : Option String) : ParseState :=
  { nf := false, do_wait := false,
    nc := match argv0 with
      | some name => decide ("freeswitchd".toList <:+: name.toList)
      | none => false,
    elegant_term := false, reincarnate := false, reincarnate_reexec := false, priority := 0,
    runas_user := none, runas_group := none, do_kill := false, core := false,
    use_sql := true, use_auto_nat := true, use_nat_mapping := true, calibrate_clock := true,
    use_clock_rt := true, heavy_timing := false, vg := false,
    alt_dirs := 0, alt_base := false, log_set := false, run_set := false,
    dirs := fun _ => none }

/-- Lines 575-585: `is_option` skips the bytes 13, 10, 9, 32, 11 and tells
whether a `-` follows. -/
def is_option (p : String) : Bool :=
  (p.toList.dropWhile fun c =>
    c.toNat == 13 || c.toNat == 10 || c.toNat == 9 || c.toNat == 32 || c.toNat == 11).head?
    == some '-'

/-- The test `switch_strlen_zero(local_argv[x]) || is_option(local_argv[x])`
on the entry after an option; `none` is the NULL entry after the last
argument. -/
def missing_arg (next : Option String) : Bool :=
  match next with
  | none => true
  | some b => b == "" || is_option b

/-- The assignments of one directory option, lines 903-1147: the name is
stored, and `-conf`, `-log`, `-db` count in `alt_dirs`, `-log` sets
`log_set`, `-run` sets `run_set`, `-base` sets `alt_base`. -/
def ParseState.set_dir (st : ParseState) (k : DirKind) (v : String) : ParseState :=
  { st with
    dirs := fun j => if j = k then some v else st.dirs j,
    alt_dirs := if k = .conf ∨ k = .log ∨ k = .db then st.alt_dirs + 1 else st.alt_dirs,
    log_set := if k = .log then true else st.log_set,
    run_set := if k = .run then true else st.run_set,
    alt_base := if k = .base then true else st.alt_base }

/-- What one pass of the loop of lines 672-1155 does with `local_argv[x]`. -/
inductive ParseStep where
  /-- The process ends here. -/
  | stop (r : Run)
  /-- The option was taken; the loop goes on with the next entry. -/
  | next (st : ParseState)
  /-- The option and its argument were taken; the loop goes on after both. -/
  | next2 (st : ParseState)

/-- The branch of the `if`/`else if` chain of lines 677-1154 (POSIX, 64-bit
build with `setrlimit`) that an entry selects. -/
inductive OptKind where
  | help | u | g | nf | elegant_term | reincarnate | reincarnate_reexec | core | waste
  | no_auto_stack | version | rp | lp | np | nosql | nonat | nonatmap | heavy_timer | nort
  | nocal | vg | stop | nc | ncwait | c
  | dir (k : DirKind)
  | unknown
  deriving DecidableEq, Repr

/-- The `strcmp` tests of lines 677-1149, in the order of the source. -/
def classify (a : String) : OptKind :=
  if a = "-help" ∨ a = "-h" ∨ a = "-?" then .help
  else if a = "-u" then .u
  else if a = "-g" then .g
  else if a = "-nf" then .nf
  else if a = "-elegant-term" then .elegant_term
  else if a = "-reincarnate" then .reincarnate
  else if a = "-reincarnate-reexec" then .reincarnate_reexec
  else if a = "-core" then .core
  else if a = "-waste" then .waste
  else if a = "-no-auto-stack" then .no_auto_stack
  else if a = "-version" then .version
  else if a = "-hp" ∨ a = "-rp" then .rp
  else if a = "-lp" then .lp
  else if a = "-np" then .np
  else if a = "-nosql" then .nosql
  else if a = "-nonat" then .nonat
  else if a = "-nonatmap" then .nonatmap
  else if a = "-heavy-timer" then .heavy_timer
  else if a = "-nort" then .nort
  else if a = "-nocal" then .nocal
  else if a = "-vg" then .vg
  else if a = "-stop" then .stop
  else if a = "-nc" then .nc
  else if a = "-ncwait" then .ncwait
  else if a = "-c" then .c
  else
    match dir_option a with
    | some k => .dir k
    | none => .unknown

/-- The body of the loop, lines 674-1154, on the entry `a = local_argv[x]`,
not empty, with `next = local_argv[x + 1]`: the statements of the branch that
`a` selects. `alloc_ok` tells whether the `malloc` of a directory branch,
when it is reached, returns a buffer. In the 64-bit build `-waste` and
`-no-auto-stack` do nothing. -/
def parse_option (a : String) (next : Option String) (alloc_ok : Bool) (st : ParseState) :
    ParseStep :=
  match classify a with
  | .help => .stop ⟨[.stdout .usage], .exited EXIT_SUCCESS⟩
  | .u =>
    if missing_arg next then .stop ⟨[.stderr .requires_argument], .exited EXIT_FAILURE⟩
    else .next2 { st with runas_user := next }
  | .g =>
    if missing_arg next then .stop ⟨[.stderr .requires_argument], .exited EXIT_FAILURE⟩
    else .next2 { st with runas_group := next }
  | .nf => .next { st with nf := true }
  | .elegant_term => .next { st with elegant_term := true }
  | .reincarnate => .next { st with reincarnate := true }
  | .reincarnate_reexec => .next { st with reincarnate := true, reincarnate_reexec := true }
  | .core => .next { st with core := true }
  | .waste => .next st
  | .no_auto_stack => .next st
  | .version => .stop ⟨[.stdout .version], .exited EXIT_SUCCESS⟩
  | .rp => .next { st with priority := 2 }
  | .lp => .next { st with priority := -1 }
  | .np => .next { st with priority := 1 }
  | .nosql => .next { st with use_sql := false }
  | .nonat => .next { st with use_auto_nat := false }
  | .nonatmap => .next { st with use_nat_mapping := false }
  | .heavy_timer => .next { st with heavy_timing := true }
  | .nort => .next { st with use_clock_rt := false }
  | .nocal => .next { st with calibrate_clock := false }
  | .vg => .next { st with vg := true }
  | .stop => .next { st with do_kill := true }
  | .nc => .next { st with nc := true }
  | .ncwait => .next { st with nc := true, do_wait := true }
  | .c => .next { st with nc := false }
  | .dir k =>
    if missing_arg next then .stop ⟨[.stderr .must_specify], .ret 255⟩
    else if ¬ alloc_ok then .stop ⟨[.stderr .allocation_error], .ret 255⟩
    else .next2 (st.set_dir k (next.getD ""))
  | .unknown => .stop ⟨[.stderr .unknown_option], .exited EXIT_FAILURE⟩

/-- The loop `for (x = 1; x < local_argc; x++)`, lines 672-1155, from the
index `x` on, the list holding the entries from `local_argv[x]` on: the run
(ending `returned` when the loop ends normally) and the state.
`malloc_ok i` tells whether the `malloc` for the copy of `local_argv[i]`
returns a buffer. -/
def parse_args (malloc_ok : Nat → Bool) : Nat → List String → ParseState → Run × ParseState
  | _, [], st => (⟨[], .returned⟩, st)
  | x, a :: rest, st =>
    if a = "" then parse_args malloc_ok (x + 1) rest st
    else
      match parse_option a rest.head? (malloc_ok (x + 1)) st with
      | .stop r => (r, st)
      | .next st1 => parse_args malloc_ok (x + 1) rest st1
      | .next2 st1 =>
        match rest with
        | [] => (⟨[], .returned⟩, st1)
        | _ :: rest2 => parse_args malloc_ok (x + 2) rest2 st1

/-- Lines 655-1155 of `main` on `local_argv` (the arguments followed by the
words of `FREESWITCH_OPTS`). -/
def main_arguments (malloc_ok : Nat → Bool) (local_argv : List String) : Run × ParseState :=
  parse_args malloc_ok 1 local_argv.tail (ParseState.initial local_argv.head?)

/-- Whether `a` is one of the options that `main` knows. -/
def known_option (a : String) : Bool :=
  a ∈ ["-help", "-h", "-?", "-u", "-g", "-nf", "-elegant-term", "-reincarnate",
    "-reincarnate-reexec", "-core", "-waste", "-no-auto-stack", "-version", "-hp", "-rp", "-lp",
    "-np", "-nosql", "-nonat", "-nonatmap", "-heavy-timer", "-nort", "-nocal", "-vg", "-stop",
    "-nc", "-ncwait", "-c"] || (dir_option a).isSome

/-! ## Theorems: reincarnate_protect -/

theorem forkCount_append (a b : List Event) :
    forkCount (a ++ b) = forkCount a + forkCount b := by
  simp [forkCount, List.countP_append]

theorem execCount_append (a b : List Event) :
    execCount (a ++ b) = execCount a + execCount b := by
  simp [execCount, List.countP_append]

theorem crashed_not_clean {s : WaitStatus} (h : crashed s = true) :
    (WIFEXITED s && (WEXITSTATUS s == EXIT_SUCCESS || WEXITSTATUS s == EXIT_FAILURE)) = false := by
  cases s <;> simp_all [crashed, WIFEXITED, WIFSIGNALED, WEXITSTATUS, EXIT_SUCCESS, EXIT_FAILURE]

theorem crashed_restarts {s : WaitStatus} (h : crashed s = true) :
    (WIFEXITED s || WIFSIGNALED s) = true := by
  cases s <;> simp_all [crashed, WIFEXITED, WIFSIGNALED]

/-- C1: a reaped status of the tracked worker that is a normal exit with code 0
or 1 makes the supervisor exit with that code; it forks nothing and attempts
no exec after the status was reaped, whatever `argv` is. -/
theorem C1_clean_exit_stops_supervisor (argv : Option (List String)) (os : SupervisorOS)
    (w : WaitAnswer) (ws : List WaitAnswer) (i : Int) (nf nx : Nat)
    (hi : i ≠ -1) (hr : w.r = i) (hexit : WIFEXITED w.s = true)
    (hcode : WEXITSTATUS w.s = 0 ∨ WEXITSTATUS w.s = 1) :
    (rewait argv os (w :: ws) i nf nx).ending = .exited (WEXITSTATUS w.s) ∧
    (rewait argv os (w :: ws) i nf nx).trace = [.waitpid i i] ∧
    forkCount (rewait argv os (w :: ws) i nf nx).trace = 0 := by
  have h1 : ¬ w.r = -1 := by rw [hr]; exact hi
  have h2 : (WIFEXITED w.s && (WEXITSTATUS w.s == EXIT_SUCCESS || WEXITSTATUS w.s == EXIT_FAILURE)) = true := by
    rcases hcode with h | h <;> simp [hexit, h, EXIT_SUCCESS, EXIT_FAILURE]
  simp [rewait, hi, hr, h2, forkCount]

theorem C1_clean_exit_stops_supervisor_witness :
    (rewait (some ["freeswitch"]) ⟨fun _ => 100, fun _ => false, fun _ => false⟩
        [⟨100, 0, .exited 1⟩] 100 1 0).ending = .exited 1 ∧
    (rewait (some ["freeswitch"]) ⟨fun _ => 100, fun _ => false, fun _ => false⟩
        [⟨100, 0, .exited 1⟩] 100 1 0).trace = [.waitpid 100 100] ∧
    forkCount (rewait (some ["freeswitch"]) ⟨fun _ => 100, fun _ => false, fun _ => false⟩
        [⟨100, 0, .exited 1⟩] 100 1 0).trace = 0 :=
  C1_clean_exit_stops_supervisor (some ["freeswitch"]) ⟨fun _ => 100, fun _ => false, fun _ => false⟩
    ⟨100, 0, .exited 1⟩ [] 100 1 0 (by decide) rfl rfl (Or.inr rfl)

theorem rewait_crashes (os : SupervisorOS) (hfork : ∀ k, 0 < os.fork k) (c : Nat)
    (hc : c = 0 ∨ c = 1) :
    ∀ (ss : List WaitStatus) (k nx : Nat), (∀ s ∈ ss, crashed s = true) →
      (rewait none os (reapedInTurn os k (ss ++ [.exited c])) (os.fork k) (k + 1) nx).ending
          = .exited c ∧
      forkCount (rewait none os (reapedInTurn os k (ss ++ [.exited c])) (os.fork k) (k + 1) nx).trace
          = ss.length ∧
      execCount (rewait none os (reapedInTurn os k (ss ++ [.exited c])) (os.fork k) (k + 1) nx).trace
          = 0 := by
  intro ss
  induction ss with
  | nil =>
    intro k nx _
    have h1 : ¬ os.fork k = -1 := by have := hfork k; omega
    rcases hc with h | h <;> subst h <;>
      simp [reapedInTurn, rewait, h1, WIFEXITED, WEXITSTATUS, EXIT_SUCCESS, EXIT_FAILURE,
        forkCount, execCount]
  | cons s ss ih =>
    intro k nx hs
    have h1 : ¬ os.fork k = -1 := by have := hfork k; omega
    have h2 : ¬ os.fork (k + 1) = 0 := by have := hfork (k + 1); omega
    have hcr : crashed s = true := hs s (List.mem_cons_self _ _)
    have ih2 := ih (k + 1) (nx + 1) (fun t ht => hs t (List.mem_cons_of_mem _ ht))
    obtain ⟨e1, e2, e3⟩ := ih2
    have hA := crashed_not_clean hcr
    have hB := crashed_restarts hcr
    simp only [List.cons_append, reapedInTurn, rewait, h1, if_false, ne_eq, not_true_eq_false,
      hA, hB, reexec, h2, not_false_eq_true, if_true, Run.after, Bool.false_eq_true]
    simp only [List.append_eq]
    refine ⟨e1, ?_, ?_⟩
    · rw [← List.singleton_append, forkCount_append, forkCount_append, e2]
      simp [forkCount, restore_prev, parent_setup, List.countP_cons]
      omega
    · rw [← List.singleton_append, execCount_append, execCount_append, e3]
      simp [execCount, restore_prev, parent_setup, List.countP_cons]

/-- C2: without re-exec (`argv = NULL`), when the workers are reaped one after
the other, `n` of them crashed (killed by a signal, or exit code other than 0
and 1) and the next one exits with `c` in {0, 1}, the supervisor forks exactly
`n + 1` workers, attempts no exec, and exits with `c`. -/
theorem C2_one_fork_per_crash (os : SupervisorOS) (hfork : ∀ k, 0 < os.fork k)
    (ss : List WaitStatus) (hcrash : ∀ s ∈ ss, crashed s = true) (c : Nat) (hc : c = 0 ∨ c = 1) :
    (reincarnate_protect none os (reapedInTurn os 0 (ss ++ [.exited c]))).ending = .exited c ∧
    forkCount (reincarnate_protect none os (reapedInTurn os 0 (ss ++ [.exited c]))).trace
      = ss.length + 1 ∧
    execCount (reincarnate_protect none os (reapedInTurn os 0 (ss ++ [.exited c]))).trace = 0 := by
  have h0 : ¬ os.fork 0 = 0 := by have := hfork 0; omega
  obtain ⟨e1, e2, e3⟩ := rewait_crashes os hfork c hc ss 0 0 hcrash
  simp only [reincarnate_protect, ne_eq, h0, not_false_eq_true, if_true, Run.after]
  refine ⟨e1, ?_, ?_⟩
  · rw [List.cons_append, ← List.singleton_append, forkCount_append, forkCount_append, e2]
    simp [forkCount, parent_setup, List.countP_cons]
    omega
  · rw [List.cons_append, ← List.singleton_append, execCount_append, execCount_append, e3]
    simp [execCount, parent_setup, List.countP_cons]

theorem C2_one_fork_per_crash_witness :
    (reincarnate_protect none ⟨fun k => 100 + k, fun _ => false, fun _ => false⟩
      (reapedInTurn ⟨fun k => 100 + k, fun _ => false, fun _ => false⟩ 0
        ([.signaled 11, .signaled 9, .signaled 6] ++ [.exited 0]))).ending = .exited 0 ∧
    forkCount (reincarnate_protect none ⟨fun k => 100 + k, fun _ => false, fun _ => false⟩
      (reapedInTurn ⟨fun k => 100 + k, fun _ => false, fun _ => false⟩ 0
        ([.signaled 11, .signaled 9, .signaled 6] ++ [.exited 0]))).trace
      = [WaitStatus.signaled 11, .signaled 9, .signaled 6].length + 1 ∧
    execCount (reincarnate_protect none ⟨fun k => 100 + k, fun _ => false, fun _ => false⟩
      (reapedInTurn ⟨fun k => 100 + k, fun _ => false, fun _ => false⟩ 0
        ([.signaled 11, .signaled 9, .signaled 6] ++ [.exited 0]))).trace = 0 :=
  C2_one_fork_per_crash ⟨fun k => 100 + k, fun _ => false, fun _ => false⟩
    (fun k => by show (0 : Int) < 100 + (k : Int); omega)
    [.signaled 11, .signaled 9, .signaled 6] (by decide) 0 (Or.inl rfl)


/-! ## Theorems: decimal text -/

theorem fmt_u_digits : ∀ (fuel n : Nat), ∀ c ∈ fmt_u fuel n, isdigit c = true := by
  intro fuel
  induction fuel with
  | zero => intro n c hc; simp [fmt_u] at hc
  | succ f ih =>
    intro n c hc
    unfold fmt_u at hc
    split at hc
    · simp at hc
      subst hc
      simp [isdigit]
      omega
    · rw [List.mem_append] at hc
      rcases hc with hc | hc
      · exact ih _ c hc
      · simp at hc
        subst hc
        simp [isdigit]
        omega

theorem fmt_u_ne_nil : ∀ (fuel n : Nat), fmt_u (fuel + 1) n ≠ [] := by
  intro fuel n
  unfold fmt_u
  split <;> simp

theorem fmt_u_length : ∀ (fuel n e : Nat), n < 10 ^ (e + 1) → (fmt_u fuel n).length ≤ e + 1 := by
  intro fuel
  induction fuel with
  | zero => intro n e _; simp [fmt_u]
  | succ f ih =>
    intro n e hn
    unfold fmt_u
    split
    · simp
    · rename_i h10
      cases e with
      | zero => simp at hn; omega
      | succ e =>
        have : n / 10 < 10 ^ (e + 1) := by
          rw [Nat.div_lt_iff_lt_mul (by decide)]
          rw [pow_succ] at hn
          exact hn
        have := ih (n / 10) e this
        simp
        omega

theorem digits_value_snoc (xs : List Nat) (d : Nat) :
    digits_value (xs ++ [d]) = 10 * digits_value xs + (d - 48) := by
  simp [digits_value, List.foldl_append]

theorem digits_value_fmt_u : ∀ (fuel n : Nat), n < fuel → digits_value (fmt_u fuel n) = n := by
  intro fuel
  induction fuel with
  | zero => intro n h; omega
  | succ f ih =>
    intro n h
    unfold fmt_u
    split
    · simp [digits_value]
    · rw [digits_value_snoc, ih (n / 10) (by omega)]
      omega

theorem takeWhile_all {p : Nat → Bool} : ∀ (l : List Nat), (∀ c ∈ l, p c = true) → l.takeWhile p = l := by
  intro l h
  rw [List.takeWhile_eq_self_iff]
  exact h

/-- Scanning the text that `%d` prints for a positive value gives the value back. -/
theorem scan_decimal_fmt_d (p : Int) (hp : 0 < p) : scan_decimal (fmt_d p) = some p := by
  have hneg : ¬ p < 0 := by omega
  have hd := fmt_u_digits (p.natAbs + 1) p.natAbs
  have hne := fmt_u_ne_nil p.natAbs p.natAbs
  have hval := digits_value_fmt_u (p.natAbs + 1) p.natAbs (by omega)
  simp only [fmt_d, hneg, if_false]
  generalize fmt_u (p.natAbs + 1) p.natAbs = l at hd hne hval
  cases l with
  | nil => exact absurd rfl hne
  | cons c t =>
    have hc : isdigit c = true := hd c (List.mem_cons_self _ _)
    have hsp : isspace c = false := by
      simp [isdigit] at hc
      simp [isspace]
      omega
    have h45 : ¬ c = 45 := by simp [isdigit] at hc; omega
    have h43 : ¬ c = 43 := by simp [isdigit] at hc; omega
    have htw : (c :: t).takeWhile isdigit = c :: t := takeWhile_all _ hd
    have hdw : (c :: t).dropWhile isspace = c :: t := by simp [List.dropWhile, hsp]
    unfold scan_decimal
    rw [hdw]
    simp only [scan_sign, h45, h43, if_false, htw, hval]
    simp
    omega

theorem takeWhile_digits_append (l rest : List Nat) (hd : ∀ c ∈ l, isdigit c = true)
    (hr : ∀ c, rest.head? = some c → isdigit c = false) :
    (l ++ rest).takeWhile isdigit = l := by
  induction l with
  | nil =>
    cases rest with
    | nil => rfl
    | cons c r =>
      have hc := hr c rfl
      simp [List.takeWhile, hc]
  | cons c t ih =>
    have hc : isdigit c = true := hd c (List.mem_cons_self _ _)
    have ht := ih (fun d hdm => hd d (List.mem_cons_of_mem _ hdm))
    simp [List.takeWhile, hc, ht]

/-- Scanning a text that starts with what `%d` prints for `v` and goes on with
something that is not a digit (or ends there) gives `v`. -/
theorem scan_decimal_fmt_d_append (v : Int) (rest : List Nat)
    (hr : ∀ c, rest.head? = some c → isdigit c = false) :
    scan_decimal (fmt_d v ++ rest) = some v := by
  have hd := fmt_u_digits (v.natAbs + 1) v.natAbs
  have hne := fmt_u_ne_nil v.natAbs v.natAbs
  have hval := digits_value_fmt_u (v.natAbs + 1) v.natAbs (by omega)
  by_cases hneg : v < 0
  · simp only [fmt_d, hneg, if_true]
    generalize fmt_u (v.natAbs + 1) v.natAbs = l at hd hne hval
    have htw := takeWhile_digits_append l rest hd hr
    have hsp : isspace 45 = false := by decide
    have hdw : (45 :: l ++ rest).dropWhile isspace = 45 :: (l ++ rest) := by
      simp [List.dropWhile, hsp]
    unfold scan_decimal
    rw [hdw]
    simp only [scan_sign, if_true, htw, hval]
    have hv : -((v.natAbs : Nat) : Int) = v := by omega
    cases l with
    | nil => exact absurd rfl hne
    | cons c t =>
      simp only [List.isEmpty_cons, Bool.false_eq_true, if_false, Option.some.injEq]
      exact hv
  · simp only [fmt_d, hneg, if_false]
    generalize fmt_u (v.natAbs + 1) v.natAbs = l at hd hne hval
    have htw := takeWhile_digits_append l rest hd hr
    cases l with
    | nil => exact absurd rfl hne
    | cons c t =>
      have hc : isdigit c = true := hd c (List.mem_cons_self _ _)
      have hsp : isspace c = false := by
        simp [isdigit] at hc
        simp [isspace]
        omega
      have h45 : ¬ c = 45 := by simp [isdigit] at hc; omega
      have h43 : ¬ c = 43 := by simp [isdigit] at hc; omega
      have hdw : (c :: t ++ rest).dropWhile isspace = c :: (t ++ rest) := by
        simp [List.dropWhile, hsp]
      have htw2 : (c :: (t ++ rest)).takeWhile isdigit = c :: t := by simpa using htw
      unfold scan_decimal
      rw [hdw]
      simp only [scan_sign, h45, h43, if_false, htw2, hval]
      simp
      omega

theorem to_int_of_range (v : Int) (h1 : -(2 ^ 31) ≤ v) (h2 : v < 2 ^ 31) : to_int v = v := by
  unfold to_int
  have a : ¬ v > 2 ^ 63 - 1 := by omega
  have b : ¬ v < -(2 ^ 63) := by omega
  simp only [a, b, if_false]
  omega

theorem to_int_range (v : Int) : -(2 ^ 31) ≤ to_int v ∧ to_int v < 2 ^ 31 := by
  simp only [to_int]
  constructor <;> omega


/-! ## Theorems: buffers -/

theorem takeWhile_nonzero_append (bs rest : List Nat) (hnz : ∀ b ∈ bs, b ≠ 0) :
    (bs ++ 0 :: rest).takeWhile (fun c => c != 0) = bs := by
  induction bs with
  | nil => simp
  | cons b t ih =>
    have hb : b ≠ 0 := hnz b (List.mem_cons_self _ _)
    simp only [List.cons_append, List.takeWhile_cons, bne_iff_ne, ne_eq, hb, not_false_eq_true,
      if_true]
    rw [ih (fun x hx => hnz x (List.mem_cons_of_mem _ hx))]

theorem stored_eq (size : Nat) (bs : List Nat) (h : bs.length < size) :
    stored size bs = bs ++ 0 :: List.replicate (size - bs.length - 1) 0 := by
  unfold stored
  rw [List.take_of_length_le (by omega)]
  congr 1
  have : size - bs.length = (size - bs.length - 1) + 1 := by omega
  rw [this, List.replicate_succ]
  simp

theorem strlen_stored (size : Nat) (bs : List Nat) (h : bs.length < size)
    (hnz : ∀ b ∈ bs, b ≠ 0) : strlen (stored size bs) = bs.length := by
  rw [stored_eq size bs h, strlen, takeWhile_nonzero_append bs _ hnz]

theorem stored_take_strlen (size : Nat) (bs : List Nat) (h : bs.length < size)
    (hnz : ∀ b ∈ bs, b ≠ 0) : (stored size bs).take (strlen (stored size bs)) = bs := by
  rw [strlen_stored size bs h hnz, stored_eq size bs h]
  simp

theorem fmt_d_nonzero (v : Int) : ∀ b ∈ fmt_d v, b ≠ 0 := by
  intro b hb
  unfold fmt_d at hb
  have key : ∀ c ∈ fmt_u (v.natAbs + 1) v.natAbs, c ≠ 0 := by
    intro c hc
    have := fmt_u_digits _ _ c hc
    simp [isdigit] at this
    omega
  split at hb
  · rcases List.mem_cons.mp hb with h | h
    · omega
    · exact key b h
  · exact key b hb

theorem fmt_d_length (v : Int) (h1 : -(2 ^ 31) ≤ v) (h2 : v < 2 ^ 31) : (fmt_d v).length ≤ 11 := by
  have hlen := fmt_u_length (v.natAbs + 1) v.natAbs 9 (by omega)
  unfold fmt_d
  split
  · simp; omega
  · omega

/-- The pid text that `main` writes: the whole `%d` text of the pid. -/
theorem pid_buffer_text (pid : Int) (h1 : -(2 ^ 31) ≤ pid) (h2 : pid < 2 ^ 31) :
    (snprintf_d 32 pid).take (strlen (snprintf_d 32 pid)) = fmt_d pid := by
  have hlen := fmt_d_length pid h1 h2
  have htake : (fmt_d pid).take (32 - 1) = fmt_d pid := List.take_of_length_le (by omega)
  unfold snprintf_d
  rw [htake]
  exact stored_take_strlen 32 (fmt_d pid) (by omega) (fmt_d_nonzero pid)


/-! ## Theorems: what the phases before the pid file do not do -/

theorem any_pidOrEngine_of (t : List Event) (h : t.any lockInitSig = false) :
    t.any pidOrEngine = false := by
  induction t with
  | nil => rfl
  | cons e t ih =>
    simp only [List.any_cons, Bool.or_eq_false_iff] at h ⊢
    exact ⟨by cases e <;> simp_all [lockInitSig, pidOrEngine], ih h.2⟩

theorem any_isSigEvent_of (t : List Event) (h : t.any lockInitSig = false) :
    t.any isSigEvent = false := by
  induction t with
  | nil => rfl
  | cons e t ih =>
    simp only [List.any_cons, Bool.or_eq_false_iff] at h ⊢
    exact ⟨by cases e <;> simp_all [lockInitSig, isSigEvent], ih h.2⟩

theorem check_fd_quiet (a : PollAnswer) : (check_fd a).1.any lockInitSig = false := by
  unfold check_fd
  split_ifs <;> simp [lockInitSig]

theorem poll_round_quiet (polls : Nat → PollAnswer) (k : Nat) :
    (poll_round polls k).1.any lockInitSig = false := by
  unfold poll_round
  split_ifs <;> simp [lockInitSig, check_fd_quiet]

theorem ready_loop_quiet (polls : Nat → PollAnswer) :
    ∀ n k, (ready_loop polls n k).1.any lockInitSig = false := by
  intro n
  induction n with
  | zero => intro k; simp [ready_loop, poll_round_quiet]
  | succ n ih =>
    intro k
    unfold ready_loop
    split_ifs <;> simp [poll_round_quiet, ih]

theorem wait_for_ready_quiet (os : DaemonOS) (pid : Int) :
    (wait_for_ready os pid).trace.any lockInitSig = false := by
  have h := ready_loop_quiet os.polls (decremented (initial_sanity os.bg_timeout)) 0
  simp only [wait_for_ready]
  generalize ready_loop os.polls (decremented (initial_sanity os.bg_timeout)) 0 = polled at h ⊢
  split_ifs <;> simp [lockInitSig, h]

theorem redirect_one_quiet (fd target : Int) (evs : List Event)
    (h : redirect_one fd target = some evs) : evs.any lockInitSig = false := by
  unfold redirect_one at h
  split_ifs at h <;> simp at h <;> subst h <;> simp [lockInitSig]

theorem redirect_std_quiet (devnull : Nat → Int) :
    (redirect_std devnull).trace.any lockInitSig = false := by
  unfold redirect_std
  split
  · simp [lockInitSig]
  · rename_i e0 h0
    split
    · simp [lockInitSig, redirect_one_quiet _ _ _ h0]
    · rename_i e1 h1
      split
      · simp [lockInitSig, redirect_one_quiet _ _ _ h0, redirect_one_quiet _ _ _ h1]
      · rename_i e2 h2
        simp [redirect_one_quiet _ _ _ h0, redirect_one_quiet _ _ _ h1,
          redirect_one_quiet _ _ _ h2]

theorem daemonize_fork2_quiet (fds : Bool) (os : DaemonOS) :
    (daemonize_fork2 fds os).trace.any lockInitSig = false := by
  unfold daemonize_fork2
  split_ifs <;>
    simp [Run.after, lockInitSig, redirect_std_quiet, wait_for_ready_quiet]

theorem daemonize_quiet (fds : Bool) (os : DaemonOS) :
    (daemonize fds os).trace.any lockInitSig = false := by
  unfold daemonize
  split_ifs <;> simp [Run.after, lockInitSig, daemonize_fork2_quiet]

theorem reexec_quiet (argv : Option (List String)) (os : SupervisorOS) (nx : Nat) :
    (reexec argv os nx).1.any lockInitSig = false := by
  unfold reexec
  split
  · simp
  · simp [lockInitSig]
  · split_ifs <;> simp [lockInitSig]

theorem rewait_quiet (argv : Option (List String)) (os : SupervisorOS) :
    ∀ (ws : List WaitAnswer) (i : Int) (nf nx : Nat),
      (rewait argv os ws i nf nx).trace.any pidOrEngine = false := by
  intro ws
  induction ws with
  | nil => intro i nf nx; simp [rewait]
  | cons w ws ih =>
    intro i nf nx
    have hx := any_pidOrEngine_of _ (reexec_quiet argv os nx)
    unfold rewait
    rcases hre : reexec argv os nx with ⟨evs, b⟩
    rw [hre] at hx
    simp only at hx
    by_cases hj : os.fork nf = 0 <;> cases b <;> split_ifs <;>
      simp [Run.after, pidOrEngine, ih, hx, restore_prev, parent_setup, hj]

theorem reincarnate_protect_quiet (argv : Option (List String)) (os : SupervisorOS)
    (ws : List WaitAnswer) : (reincarnate_protect argv os ws).trace.any pidOrEngine = false := by
  unfold reincarnate_protect
  simp only
  split_ifs <;> simp [Run.after, pidOrEngine, rewait_quiet, parent_setup]

theorem andThen_quiet (r k : Run) (hr : r.trace.any pidOrEngine = false)
    (hk : k.trace.any pidOrEngine = false) : (r.andThen k).trace.any pidOrEngine = false := by
  unfold Run.andThen
  split_ifs
  · simp only [Run.after, List.any_append, hr, hk, Bool.or_self]
  · exact hr

theorem main_before_pidfile_quiet (o : Opts) (os : MainOS) :
    (main_before_pidfile o os).trace.any pidOrEngine = false := by
  unfold main_before_pidfile
  refine andThen_quiet _ _ (andThen_quiet _ _ (andThen_quiet _ _ (andThen_quiet _ _ ?_ ?_) ?_) ?_) ?_
  · unfold main_signals; split_ifs <;> simp [pidOrEngine]
  · unfold main_pipe; split_ifs <;> simp [pidOrEngine]
  · unfold main_daemonize; split_ifs <;> simp [any_pidOrEngine_of _ (daemonize_quiet _ _)]
  · unfold main_reincarnate; split_ifs <;> simp [reincarnate_protect_quiet]
  · unfold main_privileges; split_ifs <;> simp [pidOrEngine]


/-! ## Theorems: the pid file in main -/

theorem lockRefused_append (a b : List Event) :
    lockRefused (a ++ b) = (lockRefused a || lockRefused b) := by
  simp [lockRefused]

theorem lockGranted_append (a b : List Event) :
    lockGranted (a ++ b) = (lockGranted a || lockGranted b) := by
  simp [lockGranted]

theorem initCalled_append (a b : List Event) :
    initCalled (a ++ b) = (initCalled a || initCalled b) := by
  simp [initCalled]

theorem quiet_lockRefused (t : List Event) (h : t.any pidOrEngine = false) :
    lockRefused t = false := by
  induction t with
  | nil => rfl
  | cons e t ih =>
    simp only [List.any_cons, Bool.or_eq_false_iff] at h
    have := ih h.2
    cases e <;> simp_all [lockRefused, pidOrEngine]

theorem quiet_lockGranted (t : List Event) (h : t.any pidOrEngine = false) :
    lockGranted t = false := by
  induction t with
  | nil => rfl
  | cons e t ih =>
    simp only [List.any_cons, Bool.or_eq_false_iff] at h
    have := ih h.2
    cases e <;> simp_all [lockGranted, pidOrEngine]

theorem quiet_initCalled (t : List Event) (h : t.any pidOrEngine = false) :
    initCalled t = false := by
  induction t with
  | nil => rfl
  | cons e t ih =>
    simp only [List.any_cons, Bool.or_eq_false_iff] at h
    have := ih h.2
    cases e <;> simp_all [initCalled, pidOrEngine]

theorem pid_file_read_quiet (os : PidFileOS) (file : Option (List Nat)) :
    (pid_file_read os file).any lockInitSig = false := by
  unfold pid_file_read
  cases file with
  | none => simp [lockInitSig]
  | some c => by_cases h : os.readable = true <;> simp [lockInitSig, h]

theorem main_engine_no_lock (o : Opts) (os : MainOS) :
    lockRefused (main_engine o os).trace = false ∧ lockGranted (main_engine o os).trace = false := by
  unfold main_engine
  split_ifs <;> simp [lockRefused, lockGranted]


theorem main_of_returned (o : Opts) (os : MainOS) (file : Option (List Nat))
    (h : (main_before_pidfile o os).ending = .returned) :
    main o os file =
      ⟨((pid_file_sequence os.pidf file).run.andThen (main_engine o os)).after
          (main_before_pidfile o os).trace,
       (pid_file_sequence os.pidf file).pidfile⟩ := by
  simp [main, h]

theorem main_of_not_returned (o : Opts) (os : MainOS) (file : Option (List Nat))
    (h : ¬ (main_before_pidfile o os).ending = .returned) :
    main o os file = ⟨main_before_pidfile o os, file⟩ := by
  simp [main, h]

/-- The three ways through the pid-file sequence. -/
theorem pid_file_sequence_cases (os : PidFileOS) (file : Option (List Nat)) :
    (os.writable = false ∧
      (pid_file_sequence os file).run =
        ⟨pid_file_read os file ++ [.file_open_write false, .stderr .cannot_open_pid], .ret 255⟩) ∨
    (os.writable = true ∧ os.lock_free = false ∧
      (pid_file_sequence os file).run.ending = .ret 255 ∧
      (∃ tl, (pid_file_sequence os file).run.trace =
          pid_file_read os file ++
            [.file_open_write true, .file_lock false, .stderr .cannot_lock_pid] ++ tl ∧
        tl.any pidOrEngine = false) ∧
      (pid_file_sequence os file).pidfile =
        some ((old_pid_buffer os file).take (strlen (old_pid_buffer os file)))) ∨
    (os.writable = true ∧ os.lock_free = true ∧
      (pid_file_sequence os file).run =
        ⟨pid_file_read os file ++
          [.file_open_write true, .file_lock true,
           .file_write ((snprintf_d 32 os.getpid).take (strlen (snprintf_d 32 os.getpid)))],
         .returned⟩ ∧
      (pid_file_sequence os file).pidfile =
        some ((snprintf_d 32 os.getpid).take (strlen (snprintf_d 32 os.getpid)))) := by
  by_cases hw : os.writable = true
  · by_cases hl : os.lock_free = true
    · right; right
      simp [pid_file_sequence, hw, hl]
    · right; left
      have hl2 : os.lock_free = false := by simpa using hl
      refine ⟨hw, hl2, ?_, ?_, ?_⟩
      · simp only [pid_file_sequence, hw, hl2]
        split_ifs <;> simp_all
      · by_cases hs : strlen (old_pid_buffer os file) = 0
        · exact ⟨[], by simp [pid_file_sequence, hw, hl2, hs], rfl⟩
        · exact ⟨[.file_write ((old_pid_buffer os file).take (strlen (old_pid_buffer os file)))],
            by simp [pid_file_sequence, hw, hl2, hs], by simp [pidOrEngine]⟩
      · by_cases hs : strlen (old_pid_buffer os file) = 0
        · simp [pid_file_sequence, hw, hl2, hs]
        · simp [pid_file_sequence, hw, hl2, hs]
  · left
    have hw2 : os.writable = false := by simpa using hw
    simp [pid_file_sequence, hw2]

/-- When `main` was refused the lock: it had passed the earlier phases, the
pid file could be opened for writing and the lock was held. -/
theorem main_lock_refused (o : Opts) (os : MainOS) (file : Option (List Nat))
    (h : lockRefused (main o os file).run.trace = true) :
    (main_before_pidfile o os).ending = .returned ∧ os.pidf.writable = true ∧
      os.pidf.lock_free = false := by
  have hq := quiet_lockRefused _ (main_before_pidfile_quiet o os)
  have hr := quiet_lockRefused _ (any_pidOrEngine_of _ (pid_file_read_quiet os.pidf file))
  by_cases hret : (main_before_pidfile o os).ending = .returned
  · rw [main_of_returned o os file hret] at h
    rcases pid_file_sequence_cases os.pidf file with ⟨_, hrun⟩ | ⟨hw, hl, _, _, _⟩ | ⟨_, _, hrun, _⟩
    · simp [hrun, Run.andThen, Run.after, lockRefused_append, hq, hr] at h
      simp [lockRefused] at h
    · exact ⟨hret, hw, hl⟩
    · have he := (main_engine_no_lock o os).1
      simp only [hrun, Run.andThen, Run.after, if_true, lockRefused_append, hq, hr, he] at h
      simp [lockRefused] at h
  · rw [main_of_not_returned o os file hret] at h
    rw [hq] at h
    exact absurd h (by decide)

/-- When `main` was granted the lock: it had passed the earlier phases, the
pid file could be opened for writing and the lock was free. -/
theorem main_lock_granted (o : Opts) (os : MainOS) (file : Option (List Nat))
    (h : lockGranted (main o os file).run.trace = true) :
    (main_before_pidfile o os).ending = .returned ∧ os.pidf.writable = true ∧
      os.pidf.lock_free = true := by
  have hq := quiet_lockGranted _ (main_before_pidfile_quiet o os)
  have hr := quiet_lockGranted _ (any_pidOrEngine_of _ (pid_file_read_quiet os.pidf file))
  by_cases hret : (main_before_pidfile o os).ending = .returned
  · rw [main_of_returned o os file hret] at h
    rcases pid_file_sequence_cases os.pidf file with
      ⟨_, hrun⟩ | ⟨_, _, hend, ⟨tl, htr, htl⟩, _⟩ | ⟨hw, hl, _, _⟩
    · simp [hrun, Run.andThen, Run.after, lockGranted_append, hq, hr] at h
      simp [lockGranted] at h
    · have hne : ¬ (pid_file_sequence os.pidf file).run.ending = .returned := by
        rw [hend]; decide
      have ht := quiet_lockGranted _ htl
      simp only [Run.andThen, hne, if_false, Run.after, htr, lockGranted_append, hq, hr, ht] at h
      simp [lockGranted] at h
    · exact ⟨hret, hw, hl⟩
  · rw [main_of_not_returned o os file hret] at h
    rw [hq] at h
    exact absurd h (by decide)


/-! ## Theorems: singleton lock and pid file -/

/-- C4: on every run of `main` in which the non-blocking exclusive lock on the
pid file is refused, `main` returns 255 and `switch_core_init_and_modload` is
not called. -/
theorem C4_lock_held_no_engine (o : Opts) (os : MainOS) (file : Option (List Nat))
    (h : lockRefused (main o os file).run.trace = true) :
    (main o os file).run.ending = .ret 255 ∧ initCalled (main o os file).run.trace = false := by
  obtain ⟨hret, hw, hl⟩ := main_lock_refused o os file h
  have hq := quiet_initCalled _ (main_before_pidfile_quiet o os)
  have hr := quiet_initCalled _ (any_pidOrEngine_of _ (pid_file_read_quiet os.pidf file))
  rw [main_of_returned o os file hret]
  rcases pid_file_sequence_cases os.pidf file with
    ⟨hw2, _⟩ | ⟨_, _, hend, ⟨tl, htr, htl⟩, _⟩ | ⟨_, hl2, _, _⟩
  · rw [hw] at hw2; exact absurd hw2 (by decide)
  · have hne : ¬ (pid_file_sequence os.pidf file).run.ending = .returned := by
      rw [hend]; decide
    have ht := quiet_initCalled _ htl
    have hrun : (pid_file_sequence os.pidf file).run.andThen (main_engine o os)
        = (pid_file_sequence os.pidf file).run := by
      simp only [Run.andThen, hne, if_false]
    rw [hrun]
    refine ⟨hend, ?_⟩
    show initCalled ((main_before_pidfile o os).trace ++ (pid_file_sequence os.pidf file).run.trace)
      = false
    rw [htr, initCalled_append, initCalled_append, initCalled_append, hq, hr, ht]
    rfl
  · rw [hl] at hl2; exact absurd hl2 (by decide)

theorem C4_lock_held_no_engine_witness :
    (main foreground (plainOS false) (some (bytes "4321"))).run.ending = .ret 255 ∧
    initCalled (main foreground (plainOS false) (some (bytes "4321"))).run.trace = false :=
  C4_lock_held_no_engine foreground (plainOS false) (some (bytes "4321")) (by decide)

/-- C5 fails as stated: the lock is held by another process and the pid file
holds the text `4321`, but the read-only open of line 1321 fails; the
truncating open empties the file, `old_pid_buffer` is still zeroed, nothing is
written back, and the file is empty when `main` returns 255. -/
theorem C5_unread_file_left_empty :
    lockRefused (main foreground unreadableOS (some (bytes "4321"))).run.trace = true ∧
    (main foreground unreadableOS (some (bytes "4321"))).run.ending = .ret 255 ∧
    (main foreground unreadableOS (some (bytes "4321"))).pidfile = some [] := by
  decide

/-- C5 as amended: when the lock is refused and the pid file held a text of
at most 31 bytes without a NUL byte (the holder's pid in decimal is such a
text), the pid file after `main` returns holds the same bytes if the
read-only open of line 1321 succeeded (what the truncating open removed was
written back), and is empty if that open failed. -/
theorem C5_refused_lock_keeps_content (o : Opts) (os : MainOS) (c : List Nat)
    (h : lockRefused (main o os (some c)).run.trace = true) (hlen : c.length ≤ 31)
    (hnz : ∀ b ∈ c, b ≠ 0) :
    (main o os (some c)).pidfile = if os.pidf.readable then some c else some [] := by
  obtain ⟨hret, hw, hl⟩ := main_lock_refused o os (some c) h
  rw [main_of_returned o os (some c) hret]
  rcases pid_file_sequence_cases os.pidf (some c) with
    ⟨hw2, _⟩ | ⟨_, _, _, _, hfile⟩ | ⟨_, hl2, _, _⟩
  · rw [hw] at hw2; exact absurd hw2 (by decide)
  · by_cases hread : os.pidf.readable = true
    · have hbuf : old_pid_buffer os.pidf (some c) = stored 32 c := by
        simp [old_pid_buffer, hread, List.take_of_length_le hlen]
      simp only [hfile, hbuf, hread, if_true]
      rw [stored_take_strlen 32 c (by omega) hnz]
    · have hbuf : old_pid_buffer os.pidf (some c) = stored 32 [] := by
        simp [old_pid_buffer, hread]
      simp only [hfile, hbuf, hread]
      rw [stored_take_strlen 32 [] (by decide) (by simp)]
      rfl
  · rw [hl] at hl2; exact absurd hl2 (by decide)

theorem C5_refused_lock_keeps_content_witness :
    (main foreground (plainOS false) (some (bytes "4321"))).pidfile
      = (if (plainOS false).pidf.readable then some (bytes "4321") else some []) :=
  C5_refused_lock_keeps_content foreground (plainOS false) (bytes "4321") (by decide)
    (by decide) (by decide)

/-- C6: when the lock is granted, the pid file after the write of `main` is
exactly the `%d` text of `getpid()`, whatever the file held before (also when
it did not exist): nothing follows the digits. -/
theorem C6_granted_lock_writes_pid (o : Opts) (os : MainOS) (file : Option (List Nat))
    (h : lockGranted (main o os file).run.trace = true)
    (h1 : -(2 ^ 31) ≤ os.pidf.getpid) (h2 : os.pidf.getpid < 2 ^ 31) :
    (main o os file).pidfile = some (fmt_d os.pidf.getpid) := by
  obtain ⟨hret, hw, hl⟩ := main_lock_granted o os file h
  rw [main_of_returned o os file hret]
  rcases pid_file_sequence_cases os.pidf file with
    ⟨hw2, _⟩ | ⟨_, hl2, _, _, _⟩ | ⟨_, _, _, hfile⟩
  · rw [hw] at hw2; exact absurd hw2 (by decide)
  · rw [hl] at hl2; exact absurd hl2 (by decide)
  · simp only [hfile]
    rw [pid_buffer_text _ h1 h2]

theorem C6_granted_lock_writes_pid_witness :
    (main foreground (plainOS true) (some (bytes "1234567"))).pidfile = some (bytes "4322") :=
  C6_granted_lock_writes_pid foreground (plainOS true) (some (bytes "1234567")) (by decide)
    (by decide) (by decide)

/-! ## Theorems: signal routing -/

/-- Right after lines 1212-1218 the routing is in place. -/
theorem main_signals_routes (elegant_term : Bool) :
    Routes elegant_term (dispositions (main_signals elegant_term)) := by
  cases elegant_term <;> exact ⟨rfl, rfl⟩

theorem foldl_step_of_sigFree : ∀ (t : List Event) (st : SigState),
    t.any isSigEvent = false → t.foldl SigState.step st = st := by
  intro t
  induction t with
  | nil => intro st _; rfl
  | cons e t ih =>
    intro st h
    simp only [List.any_cons, Bool.or_eq_false_iff] at h
    rw [List.foldl_cons]
    have he : SigState.step st e = st := by
      cases e <;> simp_all [SigState.step, isSigEvent]
    rw [he]
    exact ih st h.2

theorem foldl_restore_prev (st : SigState) :
    (restore_prev.foldl SigState.step st).cur SIGILL = st.saved SIGILL ∧
    (restore_prev.foldl SigState.step st).cur SIGTERM = st.saved SIGTERM ∧
    (restore_prev.foldl SigState.step st).saved = st.saved := by
  simp [restore_prev, SigState.step, SIGILL, SIGTERM, SIGCHLD]

theorem foldl_parent_setup (st : SigState) :
    (parent_setup.foldl SigState.step st).saved SIGILL = st.cur SIGILL ∧
    (parent_setup.foldl SigState.step st).saved SIGTERM = st.cur SIGTERM := by
  simp [parent_setup, SigState.step, SIGILL, SIGTERM, SIGCHLD]

/-- A process that leaves `rewait` as the new worker has for SIGILL and
SIGTERM the dispositions the supervisor had saved. -/
theorem rewait_restores (argv : Option (List String)) (os : SupervisorOS) :
    ∀ (ws : List WaitAnswer) (i : Int) (nf nx : Nat) (st : SigState),
      (rewait argv os ws i nf nx).ending = .returned →
      ((rewait argv os ws i nf nx).trace.foldl SigState.step st).cur SIGILL = st.saved SIGILL ∧
      ((rewait argv os ws i nf nx).trace.foldl SigState.step st).cur SIGTERM = st.saved SIGTERM := by
  intro ws
  induction ws with
  | nil => intro i nf nx st h; simp [rewait] at h
  | cons w ws ih =>
    intro i nf nx st
    have hx := any_isSigEvent_of _ (reexec_quiet argv os nx)
    have hstep : ∀ r : Int, SigState.step st (.waitpid i r) = st := fun _ => rfl
    unfold rewait
    rcases hre : reexec argv os nx with ⟨evs, b⟩
    rw [hre] at hx
    simp only at hx
    split_ifs with c1 c2 c3 c4 c5
    · intro h
      simp only [Run.after, List.singleton_append, List.foldl_cons, hstep]
      exact ih i nf nx st h
    · intro h; simp at h
    · intro h
      simp only [Run.after, List.singleton_append, List.foldl_cons, hstep]
      exact ih i nf nx st h
    · intro h; simp at h
    · cases b with
      | true => intro h; simp at h
      | false =>
        simp only
        obtain ⟨r1, r2, r3⟩ := foldl_restore_prev st
        by_cases hj : os.fork nf = 0
        · intro _
          simp only [hj, ne_eq, not_true_eq_false, if_false, List.foldl_cons, hstep,
            List.foldl_append, foldl_step_of_sigFree evs _ hx, List.foldl_nil]
          exact ⟨r1, r2⟩
        · intro h
          simp only [hj, ne_eq, not_false_eq_true, if_true, Run.after] at h ⊢
          simp only [List.cons_append, List.foldl_cons, hstep, List.foldl_append,
            foldl_step_of_sigFree evs _ hx]
          obtain ⟨p1, p2⟩ := foldl_parent_setup (SigState.step (restore_prev.foldl SigState.step st)
            (.fork (os.fork nf)))
          obtain ⟨q1, q2⟩ := ih (os.fork nf) (nf + 1) (nx + 1)
            (parent_setup.foldl SigState.step (SigState.step (restore_prev.foldl SigState.step st)
              (.fork (os.fork nf)))) h
          rw [q1, q2, p1, p2]
          exact ⟨r1, r2⟩
    · intro h
      simp only [Run.after, List.singleton_append, List.foldl_cons, hstep]
      exact ih i nf nx st h

/-- A process that leaves `reincarnate_protect` as a worker has the
dispositions of SIGILL and SIGTERM it entered with. -/
theorem reincarnate_protect_restores (argv : Option (List String)) (os : SupervisorOS)
    (ws : List WaitAnswer) (st : SigState)
    (h : (reincarnate_protect argv os ws).ending = .returned) :
    ((reincarnate_protect argv os ws).trace.foldl SigState.step st).cur SIGILL = st.cur SIGILL ∧
    ((reincarnate_protect argv os ws).trace.foldl SigState.step st).cur SIGTERM = st.cur SIGTERM := by
  unfold reincarnate_protect at h ⊢
  simp only at h ⊢
  by_cases hi : os.fork 0 = 0
  · simp only [hi, ne_eq, not_true_eq_false, if_false]
    exact ⟨rfl, rfl⟩
  · simp only [hi, ne_eq, not_false_eq_true, if_true, Run.after] at h ⊢
    simp only [List.cons_append, List.foldl_cons, List.foldl_append]
    obtain ⟨p1, p2⟩ := foldl_parent_setup (SigState.step st (.fork (os.fork 0)))
    obtain ⟨q1, q2⟩ := rewait_restores argv os ws (os.fork 0) 1 0
      (parent_setup.foldl SigState.step (SigState.step st (.fork (os.fork 0)))) h
    rw [q1, q2, p1, p2]
    exact ⟨rfl, rfl⟩

theorem andThen_returned (r k : Run) (h : (r.andThen k).ending = .returned) :
    r.ending = .returned ∧ k.ending = .returned ∧ (r.andThen k).trace = r.trace ++ k.trace := by
  by_cases hr : r.ending = .returned
  · have e : r.andThen k = k.after r.trace := by simp [Run.andThen, hr]
    rw [e] at h ⊢
    exact ⟨hr, h, rfl⟩
  · have e : r.andThen k = r := by simp [Run.andThen, hr]
    rw [e] at h
    exact absurd h hr

theorem andThen_running (r k : Run) (hr : r.ending ≠ .running)
    (h : (r.andThen k).ending = .running) :
    r.ending = .returned ∧ k.ending = .running ∧ (r.andThen k).trace = r.trace ++ k.trace := by
  by_cases hret : r.ending = .returned
  · have e : r.andThen k = k.after r.trace := by simp [Run.andThen, hret]
    rw [e] at h ⊢
    exact ⟨hret, h, rfl⟩
  · have e : r.andThen k = r := by simp [Run.andThen, hret]
    rw [e] at h
    exact absurd h hr

theorem keeps_of_sigFree (r : Run) (h : r.trace.any isSigEvent = false) : KeepsRoutes r := by
  intro e st hst _
  rw [foldl_step_of_sigFree _ _ h]
  exact hst

theorem establishes_andThen (e : Bool) (r k : Run) (hr : Establishes e r) (hk : KeepsRoutes k) :
    Establishes e (r.andThen k) := by
  intro h
  obtain ⟨h1, h2, h3⟩ := andThen_returned r k h
  rw [h3, dispositions, List.foldl_append]
  exact hk e _ (hr h1) h2

theorem main_pipe_keeps (o : Opts) (os : MainOS) : KeepsRoutes (main_pipe o os) := by
  apply keeps_of_sigFree
  unfold main_pipe
  split_ifs <;> simp [isSigEvent]

theorem main_daemonize_keeps (o : Opts) (os : MainOS) : KeepsRoutes (main_daemonize o os) := by
  apply keeps_of_sigFree
  unfold main_daemonize
  split_ifs <;> simp [any_isSigEvent_of _ (daemonize_quiet _ _)]

theorem main_reincarnate_keeps (o : Opts) (os : MainOS) : KeepsRoutes (main_reincarnate o os) := by
  intro e st hst h
  by_cases hre : o.reincarnate = true
  · simp only [main_reincarnate, hre, if_true] at h ⊢
    obtain ⟨q1, q2⟩ := reincarnate_protect_restores _ os.sup os.waits st h
    exact ⟨q1.trans hst.1, q2.trans hst.2⟩
  · simp only [main_reincarnate, hre, if_false]
    exact hst

theorem main_privileges_keeps (o : Opts) (os : MainOS) : KeepsRoutes (main_privileges o os) := by
  apply keeps_of_sigFree
  unfold main_privileges
  split_ifs <;> simp [isSigEvent]

/-- When the phases before the pid file return, the routing is in place. -/
theorem main_before_pidfile_establishes (o : Opts) (os : MainOS) :
    Establishes o.elegant_term (main_before_pidfile o os) := by
  unfold main_before_pidfile
  refine establishes_andThen _ _ _ (establishes_andThen _ _ _ (establishes_andThen _ _ _
    (establishes_andThen _ _ _ ?_ (main_pipe_keeps o os)) (main_daemonize_keeps o os))
    (main_reincarnate_keeps o os)) (main_privileges_keeps o os)
  intro _
  exact main_signals_routes o.elegant_term

theorem daemonize_not_running (fds : Bool) (os : DaemonOS) :
    (daemonize fds os).ending ≠ .running := by
  have hw : ∀ pid, (wait_for_ready os pid).ending ≠ .running := by
    intro pid
    simp only [wait_for_ready]
    split_ifs <;> simp
  have hr : (redirect_std os.devnull).ending ≠ .running := by
    unfold redirect_std
    repeat' split
    all_goals simp
  have h2 : ∀ f, (daemonize_fork2 f os).ending ≠ .running := by
    intro f
    unfold daemonize_fork2
    split_ifs <;> first | exact hr | exact hw os.fork2 | simp
  unfold daemonize
  split_ifs <;> first | exact h2 fds | simp

theorem rewait_not_running (argv : Option (List String)) (os : SupervisorOS) :
    ∀ (ws : List WaitAnswer) (i : Int) (nf nx : Nat),
      (rewait argv os ws i nf nx).ending ≠ .running := by
  intro ws
  induction ws with
  | nil => intro i nf nx; simp [rewait]
  | cons w ws ih =>
    intro i nf nx
    unfold rewait
    rcases reexec argv os nx with ⟨evs, b⟩
    by_cases hj : os.fork nf = 0 <;> cases b <;> split_ifs <;>
      simp [Run.after, ih, hj]

theorem reincarnate_protect_not_running (argv : Option (List String)) (os : SupervisorOS)
    (ws : List WaitAnswer) : (reincarnate_protect argv os ws).ending ≠ .running := by
  unfold reincarnate_protect
  simp only
  split_ifs
  · exact rewait_not_running _ _ _ _ _ _
  · simp

theorem main_before_pidfile_not_running (o : Opts) (os : MainOS) :
    (main_before_pidfile o os).ending ≠ .running := by
  have step : ∀ r k : Run, r.ending ≠ .running → k.ending ≠ .running →
      (r.andThen k).ending ≠ .running := by
    intro r k hr hk
    unfold Run.andThen
    split_ifs
    · exact hk
    · exact hr
  unfold main_before_pidfile
  refine step _ _ (step _ _ (step _ _ (step _ _ ?_ ?_) ?_) ?_) ?_
  · simp
  · unfold main_pipe; split_ifs <;> simp
  · unfold main_daemonize
    split_ifs
    · exact daemonize_not_running _ _
    · simp
  · by_cases hre : o.reincarnate = true
    · simp only [main_reincarnate, hre, if_true]
      exact reincarnate_protect_not_running _ _ _
    · simp [main_reincarnate, hre]
  · unfold main_privileges; split_ifs <;> simp

theorem main_engine_keeps (o : Opts) (os : MainOS) (e : Bool) (st : SigState)
    (hst : Routes e st) : Routes e ((main_engine o os).trace.foldl SigState.step st) := by
  unfold main_engine
  obtain ⟨h1, h2⟩ := hst
  split_ifs <;>
    simp [Routes, SigState.step, SIGILL, SIGTERM, SIGINT] <;>
    exact ⟨by simpa [SIGILL] using h1, by simpa [SIGTERM] using h2⟩

/-- C3: on every run of `main` that brings the process to the engine loop,
the dispositions then in force route SIGILL to `SCSC_SHUTDOWN` whether or not
`-elegant-term` was given, and SIGTERM to `SCSC_SHUTDOWN_ELEGANT` when it was
given and to `SCSC_SHUTDOWN` otherwise; this holds also for a worker forked
by the reincarnation supervisor, which puts the handlers of `main` back. -/
theorem C3_signal_routing (o : Opts) (os : MainOS) (file : Option (List Nat)) (child : Int)
    (h : (main o os file).run.ending = .running) :
    deliver (dispositions (main o os file).run.trace) child SIGILL
      = some [.session_ctl .SCSC_SHUTDOWN 0] ∧
    deliver (dispositions (main o os file).run.trace) child SIGTERM
      = some [.session_ctl
          (if o.elegant_term then .SCSC_SHUTDOWN_ELEGANT else .SCSC_SHUTDOWN) 0] := by
  have hnr := main_before_pidfile_not_running o os
  by_cases hret : (main_before_pidfile o os).ending = .returned
  · rw [main_of_returned o os file hret] at h ⊢
    have hroutes := main_before_pidfile_establishes o os hret
    simp only [Run.after] at h ⊢
    have hpid : (pid_file_sequence os.pidf file).run.ending ≠ .running := by
      rcases pid_file_sequence_cases os.pidf file with ⟨_, hr⟩ | ⟨_, _, hend, _, _⟩ | ⟨_, _, hr, _⟩
      · rw [hr]; simp
      · rw [hend]; simp
      · rw [hr]; simp
    obtain ⟨hpr, _, htr⟩ := andThen_running _ _ hpid h
    have hsig : (pid_file_sequence os.pidf file).run.trace.any isSigEvent = false := by
      have hr := any_isSigEvent_of _ (pid_file_read_quiet os.pidf file)
      rcases pid_file_sequence_cases os.pidf file with
        ⟨_, hrun⟩ | ⟨_, _, hend, _, _⟩ | ⟨_, _, hrun, _⟩
      · simp [hrun, hr, isSigEvent]
      · rw [hend] at hpr
        exact absurd hpr (by decide)
      · simp [hrun, hr, isSigEvent]
    have hfinal : Routes o.elegant_term
        (dispositions ((main_before_pidfile o os).trace ++
          ((pid_file_sequence os.pidf file).run.andThen (main_engine o os)).trace)) := by
      rw [htr, dispositions, List.foldl_append, List.foldl_append,
        foldl_step_of_sigFree _ _ hsig]
      exact main_engine_keeps o os _ _ hroutes
    obtain ⟨r1, r2⟩ := hfinal
    constructor
    · simp only [deliver, r1, handle_SIGILL]
    · cases he : o.elegant_term <;> simp [deliver, r2, he, handle_SIGILL, handle_SIGTERM]
  · rw [main_of_not_returned o os file hret] at h
    exact absurd h hnr

theorem C3_signal_routing_witness :
    deliver (dispositions (main foreground (plainOS true) none).run.trace) 0 SIGILL
      = some [.session_ctl .SCSC_SHUTDOWN 0] ∧
    deliver (dispositions (main foreground (plainOS true) none).run.trace) 0 SIGTERM
      = some [.session_ctl
          (if foreground.elegant_term then .SCSC_SHUTDOWN_ELEGANT else .SCSC_SHUTDOWN) 0] :=
  C3_signal_routing foreground (plainOS true) none 0 (by decide)

/-! ## Theorems: the stop command -/

theorem fscanf_d_fmt_d (p : Int) (h0 : 0 < p) (h1 : p < 2 ^ 31) :
    fscanf_d (fmt_d p) 0 = (1, p) := by
  simp [fscanf_d, scan_decimal_fmt_d p h0, to_int_of_range p (by omega) h1]

/-- C10: on a pid file holding the decimal text of a positive pid `p`, the
stop command sends SIGTERM to `p`, once and to nobody else, returns 0 and
leaves the pid file as it was. -/
theorem C10_stop_sends_sigterm (p : Int) (h0 : 0 < p) (h1 : p < 2 ^ 31) :
    kills (freeswitch_kill_background true (some (fmt_d p))).run.trace = [(p, SIGTERM)] ∧
    (freeswitch_kill_background true (some (fmt_d p))).run.ending = .ret 0 ∧
    (freeswitch_kill_background true (some (fmt_d p))).pidfile = some (fmt_d p) := by
  have hs := fscanf_d_fmt_d p h0 h1
  simp [freeswitch_kill_background, hs, kills, h0]

theorem C10_stop_sends_sigterm_witness :
    kills (freeswitch_kill_background true (some (bytes "4321"))).run.trace = [(4321, SIGTERM)] ∧
    (freeswitch_kill_background true (some (bytes "4321"))).run.ending = .ret 0 ∧
    (freeswitch_kill_background true (some (bytes "4321"))).pidfile = some (bytes "4321") :=
  C10_stop_sends_sigterm 4321 (by decide) (by decide)


/-! ## Theorems: the readiness poll -/

theorem kills_append (a b : List Event) : kills (a ++ b) = kills a ++ kills b := by
  simp [kills, List.filterMap_append]

theorem printed_append (m : Msg) (a b : List Event) :
    printed m (a ++ b) = printed m a + printed m b := by
  simp [printed, List.count_append]

theorem pollCount_append (a b : List Event) : pollCount (a ++ b) = pollCount a + pollCount b := by
  simp [pollCount, List.countP_append]

theorem check_fd_summary (a : PollAnswer) :
    kills (check_fd a).1 = [] ∧ printed .system_ready (check_fd a).1 = 0 ∧
      pollCount (check_fd a).1 = 1 := by
  unfold check_fd
  split_ifs <;> simp [kills, printed, pollCount, List.countP_cons, List.count_cons]

theorem poll_round_summary (polls : Nat → PollAnswer) (k : Nat) :
    kills (poll_round polls k).1 = [] ∧ printed .system_ready (poll_round polls k).1 = 0 ∧
      pollCount (poll_round polls k).1 = 1 ∧
      (poll_round polls k).2 = (check_fd (polls k)).2 := by
  obtain ⟨h1, h2, h3⟩ := check_fd_summary (polls k)
  unfold poll_round
  simp only [kills_append, printed_append, pollCount_append, h1, h2, h3]
  split_ifs <;> simp [kills, printed, pollCount, List.countP_cons, List.count_cons]

theorem ready_loop_silent (polls : Nat → PollAnswer) :
    ∀ n k, kills (ready_loop polls n k).1 = [] ∧
      printed .system_ready (ready_loop polls n k).1 = 0 := by
  intro n
  induction n with
  | zero =>
    intro k
    obtain ⟨h1, h2, _, _⟩ := poll_round_summary polls k
    simp [ready_loop, h1, h2]
  | succ n ih =>
    intro k
    obtain ⟨h1, h2, _, _⟩ := poll_round_summary polls k
    obtain ⟨i1, i2⟩ := ih (k + 1)
    unfold ready_loop
    split_ifs
    · simp only [kills_append, printed_append, h1, h2, i1, i2]
      simp
    · exact ⟨h1, h2⟩

/-- The loop when every poll it can make reports 0: it makes them all. -/
theorem ready_loop_timeout (polls : Nat → PollAnswer) :
    ∀ n k, (∀ j, j ≤ n → (check_fd (polls (k + j))).2 = 0) →
      (ready_loop polls n k).2 = 0 ∧ pollCount (ready_loop polls n k).1 = n + 1 := by
  intro n
  induction n with
  | zero =>
    intro k hz
    obtain ⟨_, _, h3, h4⟩ := poll_round_summary polls k
    have := hz 0 (Nat.le_refl 0)
    simp only [Nat.add_zero] at this
    simp [ready_loop, h3, h4, this]
  | succ n ih =>
    intro k hz
    obtain ⟨_, _, h3, h4⟩ := poll_round_summary polls k
    have h0 := hz 0 (Nat.zero_le _)
    simp only [Nat.add_zero] at h0
    have hrest : ∀ j, j ≤ n → (check_fd (polls (k + 1 + j))).2 = 0 := by
      intro j hj
      have := hz (j + 1) (by omega)
      rwa [show k + (j + 1) = k + 1 + j by omega] at this
    obtain ⟨i1, i2⟩ := ih (k + 1) hrest
    unfold ready_loop
    rw [if_pos (by rw [h4]; exact h0)]
    simp only [pollCount_append, h3, i1, i2]
    exact ⟨trivial, by omega⟩

/-- The loop when the polls report 0 until one, within the bound, reports
something else: it stops there with that value. -/
theorem ready_loop_stops (polls : Nat → PollAnswer) :
    ∀ m n k, m ≤ n → (∀ j, j < m → (check_fd (polls (k + j))).2 = 0) →
      (check_fd (polls (k + m))).2 ≠ 0 →
      (ready_loop polls n k).2 = (check_fd (polls (k + m))).2 ∧
        pollCount (ready_loop polls n k).1 = m + 1 := by
  intro m
  induction m with
  | zero =>
    intro n k _ _ hnz
    obtain ⟨_, _, h3, h4⟩ := poll_round_summary polls k
    simp only [Nat.add_zero] at hnz ⊢
    cases n with
    | zero => simp [ready_loop, h3, h4]
    | succ n =>
      unfold ready_loop
      rw [if_neg (by rw [h4]; exact hnz)]
      simp [h3, h4]
  | succ m ih =>
    intro n k hmn hz hnz
    obtain ⟨_, _, h3, h4⟩ := poll_round_summary polls k
    have h0 := hz 0 (Nat.zero_lt_succ _)
    simp only [Nat.add_zero] at h0
    cases n with
    | zero => omega
    | succ n =>
      have hrest : ∀ j, j < m → (check_fd (polls (k + 1 + j))).2 = 0 := by
        intro j hj
        have := hz (j + 1) (by omega)
        rwa [show k + (j + 1) = k + 1 + j by omega] at this
      have hnz2 : (check_fd (polls (k + 1 + m))).2 ≠ 0 := by
        rwa [show k + (m + 1) = k + 1 + m by omega] at hnz
      obtain ⟨i1, i2⟩ := ih n (k + 1) (by omega) hrest hnz2
      unfold ready_loop
      rw [if_pos (by rw [h4]; exact h0)]
      simp only [pollCount_append, h3, i1, i2]
      exact ⟨by rw [show k + (m + 1) = k + 1 + m by omega], by omega⟩

theorem atoi_range (o : List Nat) : -(2 ^ 31) ≤ atoi o ∧ atoi o < 2 ^ 31 := by
  unfold atoi
  split
  · constructor <;> decide
  · exact to_int_range _

theorem initial_sanity_pos (env : Option (List Nat)) : 1 ≤ initial_sanity env := by
  unfold initial_sanity
  cases env with
  | none => simp
  | some o =>
    simp only
    split_ifs with h
    · have := atoi_range o
      omega
    · simp

theorem decremented_initial_sanity (env : Option (List Nat)) :
    decremented (initial_sanity env) = initial_sanity env - 1 := by
  have := initial_sanity_pos env
  unfold decremented
  rw [if_neg (by omega)]


theorem check_fd_failure_iff (a : PollAnswer) :
    (check_fd a).2 < 0 ↔ failure_answer a = true := by
  unfold check_fd failure_answer
  split_ifs with h1 h2 h3 h4 <;>
    simp only [Bool.or_eq_true, Bool.and_eq_true, beq_iff_eq, bne_iff_ne, ne_eq,
      Bool.not_eq_true', decide_eq_true_eq] <;>
    constructor <;> intro h <;> first | omega | (simp_all; try omega)

/-- The parent of `switch_fork()` when `fds` is given: how it ends is decided
by the value the poll loop leaves in `system_ready`. -/
theorem daemonize_waiting_parent (os : DaemonOS) (h0 : os.fork2 ≠ 0) (h1 : os.fork2 ≠ -1) :
    ((ready_loop os.polls (initial_sanity os.bg_timeout - 1) 0).2 < 0 →
      (daemonize true os).ending = .exited EXIT_FAILURE ∧
      kills (daemonize true os).trace = [(os.fork2, SIGKILL)] ∧
      printed .system_ready (daemonize true os).trace = 0) ∧
    (¬ (ready_loop os.polls (initial_sanity os.bg_timeout - 1) 0).2 < 0 →
      (daemonize true os).ending = .exited EXIT_SUCCESS ∧
      kills (daemonize true os).trace = [] ∧
      printed .system_ready (daemonize true os).trace = 1) ∧
    pollCount (daemonize true os).trace =
      pollCount (ready_loop os.polls (initial_sanity os.bg_timeout - 1) 0).1 := by
  obtain ⟨s1, s2⟩ := ready_loop_silent os.polls (initial_sanity os.bg_timeout - 1) 0
  simp only [daemonize, daemonize_fork2, if_true, h0, h1, if_false, wait_for_ready,
    decremented_initial_sanity, Run.after]
  generalize ready_loop os.polls (initial_sanity os.bg_timeout - 1) 0 = polled at s1 s2 ⊢
  refine ⟨?_, ?_, ?_⟩
  · intro hneg
    simp only [if_pos hneg]
    refine ⟨trivial, ?_, ?_⟩
    · rw [← List.append_assoc, kills_append, kills_append, kills_append, s1]
      simp [kills]
    · rw [← List.append_assoc, printed_append, printed_append, printed_append, s2]
      simp [printed, List.count_cons]
  · intro hneg
    simp only [if_neg hneg]
    refine ⟨trivial, ?_, ?_⟩
    · rw [← List.append_assoc, kills_append, kills_append, kills_append, s1]
      simp [kills]
    · rw [← List.append_assoc, printed_append, printed_append, printed_append, s2]
      simp [printed, List.count_cons]
  · split_ifs <;>
    · simp only
      rw [← List.append_assoc, pollCount_append, pollCount_append, pollCount_append]
      simp [pollCount, List.countP_cons]


/-! ## Theorems: readiness handshake in daemonize -/

/-- C7 (what the code does): when every poll reports not-ready until the
sanity counter reaches zero, the waiting parent makes `sanity` polls, then
prints the System Ready message once, sends no signal to the worker and exits
with `EXIT_SUCCESS`: `system_ready` is 0, and only a negative value is treated
as a failure. -/
theorem C7_timeout_reports_ready (os : DaemonOS) (h0 : os.fork2 ≠ 0) (h1 : os.fork2 ≠ -1)
    (hz : ∀ k, k < initial_sanity os.bg_timeout → (check_fd (os.polls k)).2 = 0) :
    (daemonize true os).ending = .exited EXIT_SUCCESS ∧
    kills (daemonize true os).trace = [] ∧
    printed .system_ready (daemonize true os).trace = 1 ∧
    pollCount (daemonize true os).trace = initial_sanity os.bg_timeout := by
  have hpos := initial_sanity_pos os.bg_timeout
  obtain ⟨t1, t2⟩ := ready_loop_timeout os.polls (initial_sanity os.bg_timeout - 1) 0
    (fun j hj => by rw [Nat.zero_add]; exact hz j (by omega))
  obtain ⟨_, hok, hcount⟩ := daemonize_waiting_parent os h0 h1
  obtain ⟨e1, e2, e3⟩ := hok (by rw [t1]; decide)
  exact ⟨e1, e2, e3, by rw [hcount, t2]; omega⟩

theorem C7_timeout_reports_ready_witness :
    (daemonize true silentWorker).ending = .exited EXIT_SUCCESS ∧
    kills (daemonize true silentWorker).trace = [] ∧
    printed .system_ready (daemonize true silentWorker).trace = 1 ∧
    pollCount (daemonize true silentWorker).trace = initial_sanity silentWorker.bg_timeout :=
  C7_timeout_reports_ready silentWorker (by decide) (by decide) (fun _ _ => rfl)

/-- C8: when the first `N - 1` polls report not-ready and the `N`-th, with
`1 ≤ N ≤ sanity`, delivers a positive value, the waiting parent stops after
`N` polls, prints the System Ready message exactly once, sends no signal and
exits with code 0. -/
theorem C8_ready_within_bound (os : DaemonOS) (N : Nat) (h0 : os.fork2 ≠ 0) (h1 : os.fork2 ≠ -1)
    (hN1 : 1 ≤ N) (hN2 : N ≤ initial_sanity os.bg_timeout)
    (hz : ∀ k, k < N - 1 → (check_fd (os.polls k)).2 = 0)
    (hs0 : (os.polls (N - 1)).s ≠ 0) (hs1 : (os.polls (N - 1)).s ≠ -1)
    (hin : (os.polls (N - 1)).pollin = true) (hi : 0 < (os.polls (N - 1)).i)
    (hv : 0 < (os.polls (N - 1)).v) :
    (daemonize true os).ending = .exited 0 ∧
    printed .system_ready (daemonize true os).trace = 1 ∧
    kills (daemonize true os).trace = [] ∧
    pollCount (daemonize true os).trace = N := by
  have hval : (check_fd (os.polls (N - 1))).2 = (os.polls (N - 1)).v := by
    have hi2 : (os.polls (N - 1)).i > -1 := by omega
    simp [check_fd, hs0, hs1, hin, hi, hi2]
  obtain ⟨t1, t2⟩ := ready_loop_stops os.polls (N - 1) (initial_sanity os.bg_timeout - 1) 0
    (by omega) (fun j hj => by rw [Nat.zero_add]; exact hz j hj)
    (by rw [Nat.zero_add, hval]; omega)
  rw [Nat.zero_add, hval] at t1
  obtain ⟨_, hok, hcount⟩ := daemonize_waiting_parent os h0 h1
  obtain ⟨e1, e2, e3⟩ := hok (by rw [t1]; omega)
  exact ⟨e1, e3, e2, by rw [hcount, t2]; omega⟩

theorem C8_ready_within_bound_witness :
    (daemonize true readyWorker).ending = .exited 0 ∧
    printed .system_ready (daemonize true readyWorker).trace = 1 ∧
    kills (daemonize true readyWorker).trace = [] ∧
    pollCount (daemonize true readyWorker).trace = 3 :=
  C8_ready_within_bound readyWorker 3 (by decide) (by decide) (by decide) (by decide)
    (by decide) (by decide) (by decide) (by decide) (by decide) (by decide)

/-- C9 fails as stated: here the first poll delivers the value 0, and the
parent prints the waiting message, polls again, receives 1, kills nobody and
exits with code 0. -/
theorem C9_zero_value_is_not_failure :
    check_fd (zeroThenReady.polls 0) = ([.poll 1, .read 4, .echo 0], 0) ∧
    (daemonize true zeroThenReady).ending = .exited EXIT_SUCCESS ∧
    kills (daemonize true zeroThenReady).trace = [] ∧
    pollCount (daemonize true zeroThenReady).trace = 2 ∧
    printed .system_ready (daemonize true zeroThenReady).trace = 1 := by
  decide

/-- C9 as amended: when the first `N - 1` polls report not-ready and the
`N`-th, with `1 ≤ N ≤ sanity`, is a failure (poll error, no readable data,
read error or end of file, or a negative value), the waiting parent stops
after `N` polls, sends SIGKILL to the worker and exits with `EXIT_FAILURE`
without the System Ready message; a value of zero is not a failure, `check_fd`
reports it as not-ready. -/
theorem C9_failure_kills_worker (os : DaemonOS) (N : Nat) (h0 : os.fork2 ≠ 0)
    (h1 : os.fork2 ≠ -1) (hN1 : 1 ≤ N) (hN2 : N ≤ initial_sanity os.bg_timeout)
    (hz : ∀ k, k < N - 1 → (check_fd (os.polls k)).2 = 0)
    (hfail : failure_answer (os.polls (N - 1)) = true) :
    ((daemonize true os).ending = .exited EXIT_FAILURE ∧
      kills (daemonize true os).trace = [(os.fork2, SIGKILL)] ∧
      pollCount (daemonize true os).trace = N ∧
      printed .system_ready (daemonize true os).trace = 0) ∧
    (∀ s i : Int, s ≠ 0 → s ≠ -1 → 0 < i → (check_fd ⟨s, true, i, 0⟩).2 = 0) := by
  have hneg : (check_fd (os.polls (N - 1))).2 < 0 := (check_fd_failure_iff _).mpr hfail
  obtain ⟨t1, t2⟩ := ready_loop_stops os.polls (N - 1) (initial_sanity os.bg_timeout - 1) 0
    (by omega) (fun j hj => by rw [Nat.zero_add]; exact hz j hj)
    (by rw [Nat.zero_add]; omega)
  rw [Nat.zero_add] at t1
  obtain ⟨hbad, _, hcount⟩ := daemonize_waiting_parent os h0 h1
  obtain ⟨e1, e2, e3⟩ := hbad (by rw [t1]; exact hneg)
  refine ⟨⟨e1, e2, by rw [hcount, t2]; omega, e3⟩, ?_⟩
  intro s i hs0 hs1 hi
  have hi2 : i > -1 := by omega
  simp [check_fd, hs0, hs1, hi, hi2]

theorem C9_failure_kills_worker_witness :
    ((daemonize true deadWorker).ending = .exited EXIT_FAILURE ∧
      kills (daemonize true deadWorker).trace = [(deadWorker.fork2, SIGKILL)] ∧
      pollCount (daemonize true deadWorker).trace = 2 ∧
      printed .system_ready (daemonize true deadWorker).trace = 0) ∧
    (∀ s i : Int, s ≠ 0 → s ≠ -1 → 0 < i → (check_fd ⟨s, true, i, 0⟩).2 = 0) :=
  C9_failure_kills_worker deadWorker 2 (by decide) (by decide) (by decide) (by decide)
    (by decide) (by decide)

/-! ## Theorems: interrupted waits and restart strategies -/

theorem after_after (a b : List Event) (r : Run) : (r.after b).after a = r.after (a ++ b) := by
  simp [Run.after, List.append_assoc]

theorem rewait_interrupted (argv : Option (List String)) (os : SupervisorOS) :
    ∀ (es ws : List WaitAnswer) (i : Int) (nf nx : Nat),
      (∀ e ∈ es, e.r = -1 ∧ e.errno = EINTR) →
      rewait argv os (es ++ ws) i nf nx =
        (rewait argv os ws i nf nx).after (es.map fun _ => Event.waitpid i (-1)) := by
  intro es
  induction es with
  | nil => intro ws i nf nx _; simp [Run.after]
  | cons e es ih =>
    intro ws i nf nx h
    obtain ⟨h1, h2⟩ := h e (List.mem_cons_self _ _)
    have ih2 := ih ws i nf nx (fun x hx => h x (List.mem_cons_of_mem _ hx))
    rw [List.cons_append, rewait, if_pos h1, if_pos h2, ih2, after_after, h1]
    rfl

/-- C13: a `waitpid` that fails with `EINTR` is retried: after any number of
interrupted waits the supervisor goes on exactly as without them, with the
same tracked child and nothing forked, only the `waitpid` calls are added;
a `waitpid` that fails with another error makes the supervisor exit with
`EXIT_FAILURE`, which is not zero, without a fork. -/
theorem C13_wait_failure (argv : Option (List String)) (os : SupervisorOS)
    (es : List WaitAnswer) (w : WaitAnswer) (ws : List WaitAnswer) (i : Int) (nf nx : Nat)
    (hes : ∀ e ∈ es, e.r = -1 ∧ e.errno = EINTR) (hw : w.r = -1) :
    rewait argv os (es ++ ws) i nf nx =
      (rewait argv os ws i nf nx).after (es.map fun _ => Event.waitpid i (-1)) ∧
    (w.errno ≠ EINTR →
      (rewait argv os (es ++ w :: ws) i nf nx).ending = .exited EXIT_FAILURE ∧
      EXIT_FAILURE ≠ 0 ∧
      forkCount (rewait argv os (es ++ w :: ws) i nf nx).trace = 0) := by
  refine ⟨rewait_interrupted argv os es ws i nf nx hes, ?_⟩
  intro hne
  rw [rewait_interrupted argv os es (w :: ws) i nf nx hes, rewait, if_pos hw, if_neg hne]
  refine ⟨rfl, by decide, ?_⟩
  simp only [Run.after, forkCount_append]
  have : forkCount (es.map fun _ => Event.waitpid i (-1)) = 0 := by
    simp [forkCount]
  rw [this]
  simp [forkCount]

theorem C13_wait_failure_witness :
    rewait none ⟨fun _ => 100, fun _ => false, fun _ => false⟩
        ([⟨-1, EINTR, .continued⟩, ⟨-1, EINTR, .continued⟩] ++ [⟨100, 0, .exited 0⟩]) 100 1 0 =
      (rewait none ⟨fun _ => 100, fun _ => false, fun _ => false⟩ [⟨100, 0, .exited 0⟩] 100 1 0).after
        (([⟨-1, EINTR, .continued⟩, ⟨-1, EINTR, .continued⟩] : List WaitAnswer).map
          fun _ => Event.waitpid 100 (-1)) ∧
    ((⟨-1, 10, .continued⟩ : WaitAnswer).errno ≠ EINTR →
      (rewait none ⟨fun _ => 100, fun _ => false, fun _ => false⟩
        ([⟨-1, EINTR, .continued⟩, ⟨-1, EINTR, .continued⟩] ++
          ⟨-1, 10, .continued⟩ :: [⟨100, 0, .exited 0⟩]) 100 1 0).ending = .exited EXIT_FAILURE ∧
      EXIT_FAILURE ≠ 0 ∧
      forkCount (rewait none ⟨fun _ => 100, fun _ => false, fun _ => false⟩
        ([⟨-1, EINTR, .continued⟩, ⟨-1, EINTR, .continued⟩] ++
          ⟨-1, 10, .continued⟩ :: [⟨100, 0, .exited 0⟩]) 100 1 0).trace = 0) :=
  C13_wait_failure none ⟨fun _ => 100, fun _ => false, fun _ => false⟩
    [⟨-1, EINTR, .continued⟩, ⟨-1, EINTR, .continued⟩] ⟨-1, 10, .continued⟩
    [⟨100, 0, .exited 0⟩] 100 1 0 (by decide) rfl

theorem restartAttempts_append (a b : List Event) :
    restartAttempts (a ++ b) = restartAttempts a ++ restartAttempts b := by
  simp [restartAttempts, List.filterMap_append]

/-- C14: after an abnormal exit of the tracked worker, the attempts of the
supervisor are those of the ordered strategy list tried in sequence: `execv`,
then `execvp` only if `execv` failed, then a fork only if both failed, when
re-exec was requested; a fork alone, without any exec, when it was not. A
successful exec replaces the process; after a fork the parent goes on with
the new worker. -/
theorem C14_restart_strategy_order (argv : Option (List String)) (os : SupervisorOS)
    (w : WaitAnswer) (ws : List WaitAnswer) (i : Int) (nf nx : Nat)
    (hi : i ≠ -1) (hr : w.r = i) (hcrash : crashed w.s = true) :
    restartAttempts (rewait argv os (w :: ws) i nf nx).trace =
      spec_try_in_sequence os nf nx (spec_restart_strategies (reexec_requested argv)) ++
        (if (reexec argv os nx).2 = false ∧ os.fork nf ≠ 0 then
          restartAttempts (rewait argv os ws (os.fork nf) (nf + 1) (nx + 1)).trace
         else []) ∧
    ((reexec argv os nx).2 = true → (rewait argv os (w :: ws) i nf nx).ending = .replaced) := by
  have h1 : ¬ w.r = -1 := by rw [hr]; exact hi
  have hA := crashed_not_clean hcrash
  have hB := crashed_restarts hcrash
  have hstep : rewait argv os (w :: ws) i nf nx =
      match reexec argv os nx with
      | (evs, true) => ⟨.waitpid i w.r :: restore_prev ++ evs, .replaced⟩
      | (evs, false) =>
        if os.fork nf ≠ 0 then
          (rewait argv os ws (os.fork nf) (nf + 1) (nx + 1)).after
            (.waitpid i w.r :: restore_prev ++ evs ++ .fork (os.fork nf) :: parent_setup)
        else
          ⟨.waitpid i w.r :: restore_prev ++ evs ++ [.fork (os.fork nf), .prctl_pdeathsig],
            .returned⟩ := by
    rw [rewait, if_neg h1, if_neg (by simp [hr]), hA, if_neg (by simp), hB, if_pos rfl]
  rw [hstep]
  rcases argv with _ | ⟨_ | ⟨a, as⟩⟩
  · by_cases hj : os.fork nf = 0 <;>
      simp [reexec, reexec_requested, spec_restart_strategies, spec_try_in_sequence, spec_try, hj,
        Run.after, restartAttempts, restore_prev, parent_setup]
  · by_cases hj : os.fork nf = 0 <;>
      simp [reexec, reexec_requested, spec_restart_strategies, spec_try_in_sequence, spec_try, hj,
        Run.after, restartAttempts, restore_prev, parent_setup]
  · by_cases hj : os.fork nf = 0 <;> by_cases hv : os.execv nx = true <;>
      by_cases hp : os.execvp nx = true <;>
      simp [reexec, reexec_requested, spec_restart_strategies, spec_try_in_sequence, spec_try, hj,
        hv, hp, Run.after, restartAttempts, restore_prev, parent_setup]

theorem C14_restart_strategy_order_witness :
    restartAttempts (rewait (some ["freeswitch"]) ⟨fun _ => 0, fun _ => false, fun _ => false⟩
        (⟨100, 0, .signaled 11⟩ :: []) 100 1 0).trace =
      spec_try_in_sequence ⟨fun _ => 0, fun _ => false, fun _ => false⟩ 1 0
          (spec_restart_strategies (reexec_requested (some ["freeswitch"]))) ++
        (if (reexec (some ["freeswitch"]) ⟨fun _ => 0, fun _ => false, fun _ => false⟩ 0).2 = false ∧
            (⟨fun _ => 0, fun _ => false, fun _ => false⟩ : SupervisorOS).fork 1 ≠ 0 then
          restartAttempts (rewait (some ["freeswitch"]) ⟨fun _ => 0, fun _ => false, fun _ => false⟩
            [] ((⟨fun _ => 0, fun _ => false, fun _ => false⟩ : SupervisorOS).fork 1) (1 + 1)
            (0 + 1)).trace
         else []) ∧
    ((reexec (some ["freeswitch"]) ⟨fun _ => 0, fun _ => false, fun _ => false⟩ 0).2 = true →
      (rewait (some ["freeswitch"]) ⟨fun _ => 0, fun _ => false, fun _ => false⟩
        (⟨100, 0, .signaled 11⟩ :: []) 100 1 0).ending = .replaced) :=
  C14_restart_strategy_order (some ["freeswitch"]) ⟨fun _ => 0, fun _ => false, fun _ => false⟩
    ⟨100, 0, .signaled 11⟩ [] 100 1 0 (by decide) rfl (by decide)

/-! ## Theorems: the forks of daemonize -/

/-- C15 fails as stated: when the first fork fails, and when `switch_fork()`
fails, the process prints its message and exits with code 0. -/
theorem C15_fork_failure_exits_zero :
    daemonize false firstForkFails = ⟨[.fork (-1), .stderr .fork_error], .exited 0⟩ ∧
    daemonize false secondForkFails =
      ⟨[.fork 0, .setsid, .fork (-1), .stderr .fork2_error], .exited 0⟩ ∧
    daemonize true secondForkFails = ⟨[.fork (-1), .stderr .fork2_error], .exited 0⟩ := by
  decide

/-- C15 as amended: when a detachment fork of `daemonize` returns -1, the
process writes its error message to standard error as its last action and
calls `exit(EXIT_SUCCESS)`, exit code 0; it does not enter the worker path. -/
theorem C15_fork_failure (fds : Bool) (os : DaemonOS)
    (h : (fds = false ∧ os.fork1 = -1) ∨
      ((fds = true ∨ (os.fork1 = 0 ∧ ¬ os.setsid1 < 0)) ∧ os.fork2 = -1)) :
    (daemonize fds os).ending = .exited EXIT_SUCCESS ∧ EXIT_SUCCESS = 0 ∧
    ((daemonize fds os).trace.getLast? = some (.stderr .fork_error) ∨
      (daemonize fds os).trace.getLast? = some (.stderr .fork2_error)) ∧
    workerPath (daemonize fds os).trace = false := by
  rcases h with ⟨hf, h1⟩ | ⟨hreach, h2⟩
  · subst hf
    simp [daemonize, h1, workerPath, EXIT_SUCCESS]
  · have hfork2 : daemonize_fork2 fds os = ⟨[.fork os.fork2, .stderr .fork2_error], .exited EXIT_SUCCESS⟩ := by
      simp [daemonize_fork2, h2]
    rcases hreach with hf | ⟨h1, hs⟩
    · subst hf
      simp [daemonize, hfork2, workerPath, EXIT_SUCCESS]
    · cases fds <;> simp [daemonize, hfork2, h1, hs, Run.after, workerPath, EXIT_SUCCESS]

theorem C15_fork_failure_witness :
    (daemonize false secondForkFails).ending = .exited EXIT_SUCCESS ∧ EXIT_SUCCESS = 0 ∧
    ((daemonize false secondForkFails).trace.getLast? = some (.stderr .fork_error) ∨
      (daemonize false secondForkFails).trace.getLast? = some (.stderr .fork2_error)) ∧
    workerPath (daemonize false secondForkFails).trace = false :=
  C15_fork_failure false secondForkFails (by decide)

theorem forkResults_append (a b : List Event) :
    forkResults (a ++ b) = forkResults a ++ forkResults b := by
  simp [forkResults, List.filterMap_append]

theorem redirect_one_no_fork (fd target : Int) (evs : List Event)
    (h : redirect_one fd target = some evs) : forkResults evs = [] := by
  unfold redirect_one at h
  split_ifs at h <;> simp at h <;> subst h <;> simp [forkResults]

theorem redirect_std_no_fork (devnull : Nat → Int) :
    forkResults (redirect_std devnull).trace = [] := by
  unfold redirect_std
  split
  · simp [forkResults]
  · rename_i e0 h0
    split
    · simp only [forkResults_append, redirect_one_no_fork _ _ _ h0]
      rfl
    · rename_i e1 h1
      split
      · simp only [forkResults_append, redirect_one_no_fork _ _ _ h0,
          redirect_one_no_fork _ _ _ h1]
        rfl
      · rename_i e2 h2
        simp only [forkResults_append, redirect_one_no_fork _ _ _ h0,
          redirect_one_no_fork _ _ _ h1, redirect_one_no_fork _ _ _ h2]
        rfl

theorem wait_for_ready_exits (os : DaemonOS) (pid : Int) :
    (wait_for_ready os pid).ending ≠ .returned := by
  simp only [wait_for_ready]
  split_ifs <;> simp

theorem daemonize_fork2_returned (fds : Bool) (os : DaemonOS)
    (h : (daemonize_fork2 fds os).ending = .returned) :
    forkResults (daemonize_fork2 fds os).trace = [0] := by
  have hw := wait_for_ready_exits os os.fork2
  have hr := redirect_std_no_fork os.devnull
  unfold daemonize_fork2 at h ⊢
  by_cases h0 : os.fork2 = 0
  · simp only [h0, if_true, Run.after]
    rw [← List.singleton_append, forkResults_append, forkResults_append, hr]
    cases fds <;> simp [forkResults]
  · by_cases h1 : os.fork2 = -1
    · simp [h0, h1] at h
    · cases fds
      · simp [h0, h1] at h
      · simp only [h0, h1, if_false, if_true, Run.after] at h
        exact absurd h hw

/-- C16 fails as stated: with `fds` given, the worker that returns from
`daemonize` comes from a single fork, `switch_fork()`; the fork of line 271
is not made. -/
theorem C16_single_fork_with_fds :
    (daemonize true quietDaemon).ending = .returned ∧
    forkCount (daemonize true quietDaemon).trace = 1 ∧
    forkResults (daemonize true quietDaemon).trace = [0] := by
  decide

/-- C16 as amended: the worker that returns from `daemonize` is the child of
two sequential forks when `fds` is NULL, and of the one `switch_fork()` when
`fds` is given; when `fds` is NULL the parent of the first fork exits at once
with `EXIT_SUCCESS`. -/
theorem C16_detachment_forks (fds : Bool) (os : DaemonOS)
    (h : (daemonize fds os).ending = .returned) :
    forkResults (daemonize fds os).trace = (if fds then [0] else [0, 0]) ∧
    (∀ os2 : DaemonOS, os2.fork1 ≠ 0 → os2.fork1 ≠ -1 →
      daemonize false os2 = ⟨[.fork os2.fork1], .exited EXIT_SUCCESS⟩) := by
  constructor
  · cases fds
    · simp only [daemonize, Bool.false_eq_true, if_false] at h ⊢
      by_cases h1 : os.fork1 = 0
      · by_cases hs : os.setsid1 < 0
        · simp [h1, hs] at h
        · simp only [h1, hs, if_true, if_false, Run.after] at h ⊢
          rw [forkResults_append, daemonize_fork2_returned false os h]
          simp [forkResults]
      · by_cases h2 : os.fork1 = -1
        · simp [h1, h2] at h
        · simp [h1, h2] at h
    · simp only [daemonize, if_true] at h ⊢
      exact daemonize_fork2_returned true os h
  · intro os2 h1 h2
    simp [daemonize, h1, h2]

theorem C16_detachment_forks_witness :
    forkResults (daemonize false quietDaemon).trace = (if false then [0] else [0, 0]) ∧
    (∀ os2 : DaemonOS, os2.fork1 ≠ 0 → os2.fork1 ≠ -1 →
      daemonize false os2 = ⟨[.fork os2.fork1], .exited EXIT_SUCCESS⟩) :=
  C16_detachment_forks false quietDaemon (by decide)

/-! ## Theorems: the sanity counter -/

/-- C12 fails as stated: `2147483648` is a positive number and the counter
stays 60; `4294967297` is a positive number and the counter is 1; `12abc` is
not a number and the counter is 12. -/
theorem C12_text_value_not_counter :
    initial_sanity (some (bytes "2147483648")) = 60 ∧
    initial_sanity (some (bytes "4294967297")) = 1 ∧
    initial_sanity (some (bytes "12abc")) = 12 := by
  decide

/-- C12 as amended: the counter starts at 60 when `FREESWITCH_BG_TIMEOUT` is
unset. When it is set, `atoi` reads the number the text starts with (after
white space and an optional sign; what follows the digits is ignored) and
converts it to `int`: the counter is that `int` when it is positive and stays
60 otherwise, also when the text starts with no number. A leading number
from 1 to 2147483647 is the counter; a leading number from -2147483648 to 0
keeps 60; so for a text that is the decimal text of such a number followed by
nothing or by a byte that is not a digit. -/
theorem C12_sanity_override :
    initial_sanity none = 60 ∧
    (∀ o : List Nat, scan_decimal o = none → initial_sanity (some o) = 60) ∧
    (∀ (o : List Nat) (v : Int), scan_decimal o = some v →
      initial_sanity (some o) = if to_int v > 0 then (to_int v).toNat else 60) ∧
    (∀ (o : List Nat) (v : Int), scan_decimal o = some v → 0 < v → v < 2 ^ 31 →
      initial_sanity (some o) = v.toNat) ∧
    (∀ (o : List Nat) (v : Int), scan_decimal o = some v → v ≤ 0 → -(2 ^ 31) ≤ v →
      initial_sanity (some o) = 60) ∧
    (∀ (v : Int) (rest : List Nat), (∀ c, rest.head? = some c → isdigit c = false) →
      0 < v → v < 2 ^ 31 → initial_sanity (some (fmt_d v ++ rest)) = v.toNat) ∧
    (∀ (v : Int) (rest : List Nat), (∀ c, rest.head? = some c → isdigit c = false) →
      v ≤ 0 → -(2 ^ 31) ≤ v → initial_sanity (some (fmt_d v ++ rest)) = 60) := by
  have hgen : ∀ (o : List Nat) (v : Int), scan_decimal o = some v →
      initial_sanity (some o) = if to_int v > 0 then (to_int v).toNat else 60 := by
    intro o v hs
    have ha : atoi o = to_int v := by simp only [atoi, hs]
    have hr := to_int_range v
    simp only [initial_sanity, ha]
    split_ifs
    · omega
    · rfl
  have hpos : ∀ (o : List Nat) (v : Int), scan_decimal o = some v → 0 < v → v < 2 ^ 31 →
      initial_sanity (some o) = v.toNat := by
    intro o v hs h0 h1
    rw [hgen o v hs, to_int_of_range v (by omega) h1]
    simp only [gt_iff_lt, h0, if_true]
  have hnonpos : ∀ (o : List Nat) (v : Int), scan_decimal o = some v → v ≤ 0 →
      -(2 ^ 31) ≤ v → initial_sanity (some o) = 60 := by
    intro o v hs h0 h1
    rw [hgen o v hs, to_int_of_range v h1 (by omega)]
    have : ¬ v > 0 := by omega
    simp only [this, if_false]
  refine ⟨rfl, ?_, hgen, hpos, hnonpos, ?_, ?_⟩
  · intro o hs
    simp [initial_sanity, atoi, hs]
  · intro v rest hr h0 h1
    exact hpos _ v (scan_decimal_fmt_d_append v rest hr) h0 h1
  · intro v rest hr h0 h1
    exact hnonpos _ v (scan_decimal_fmt_d_append v rest hr) h0 h1

theorem C12_sanity_override_witness :
    initial_sanity (some (bytes "12abc")) = (12 : Int).toNat ∧
    initial_sanity (some (bytes "-5")) = 60 ∧
    initial_sanity (some (bytes "soon")) = 60 :=
  ⟨C12_sanity_override.2.2.2.2.2.1 12 (bytes "abc") (by decide) (by decide) (by decide),
    C12_sanity_override.2.2.2.2.1 (bytes "-5") (-5) (by decide) (by decide) (by decide),
    C12_sanity_override.2.1 (bytes "soon") (by decide)⟩

/-- Values of the counter for some settings of the variable. -/
theorem initial_sanity_examples :
    initial_sanity (some (bytes "120")) = 120 ∧ initial_sanity (some (bytes " +7 seconds")) = 7 ∧
    initial_sanity (some (bytes "0")) = 60 ∧ initial_sanity (some (bytes "-5")) = 60 ∧
    initial_sanity (some (bytes "soon")) = 60 ∧ initial_sanity (some (bytes "")) = 60 := by
  decide

theorem ready_loop_bound (polls : Nat → PollAnswer) :
    ∀ n k, pollCount (ready_loop polls n k).1 ≤ n + 1 := by
  intro n
  induction n with
  | zero =>
    intro k
    obtain ⟨_, _, h3, _⟩ := poll_round_summary polls k
    simp [ready_loop, h3]
  | succ n ih =>
    intro k
    obtain ⟨_, _, h3, _⟩ := poll_round_summary polls k
    have := ih (k + 1)
    unfold ready_loop
    split_ifs
    · simp only [pollCount_append, h3]
      omega
    · rw [h3]
      omega

/-- C20: the poll loop, started with a counter `sanity ≥ 1`, ends after at
most `sanity` calls of `check_fd` whatever the polls report; it makes exactly
`sanity` calls when every poll reports not-ready, and it stops at the first
poll that reports something else, leaving that value in `system_ready`. The
initial value of the counter in `daemonize` is at least 1. -/
theorem C20_poll_loop_bounded (polls : Nat → PollAnswer) (sanity : Nat) (h1 : 1 ≤ sanity) :
    pollCount (ready_loop polls (decremented sanity) 0).1 ≤ sanity ∧
    ((∀ k, k < sanity → (check_fd (polls k)).2 = 0) →
      pollCount (ready_loop polls (decremented sanity) 0).1 = sanity) ∧
    (∀ m, m < sanity → (∀ j, j < m → (check_fd (polls j)).2 = 0) →
      (check_fd (polls m)).2 ≠ 0 →
      pollCount (ready_loop polls (decremented sanity) 0).1 = m + 1 ∧
      (ready_loop polls (decremented sanity) 0).2 = (check_fd (polls m)).2) ∧
    (∀ env, 1 ≤ initial_sanity env) := by
  have hd : decremented sanity = sanity - 1 := by
    unfold decremented
    rw [if_neg (by omega)]
  rw [hd]
  refine ⟨?_, ?_, ?_, initial_sanity_pos⟩
  · have := ready_loop_bound polls (sanity - 1) 0
    omega
  · intro hz
    obtain ⟨_, t2⟩ := ready_loop_timeout polls (sanity - 1) 0
      (fun j hj => by rw [Nat.zero_add]; exact hz j (by omega))
    omega
  · intro m hm hz hnz
    obtain ⟨t1, t2⟩ := ready_loop_stops polls m (sanity - 1) 0 (by omega)
      (fun j hj => by rw [Nat.zero_add]; exact hz j hj) (by rw [Nat.zero_add]; exact hnz)
    rw [Nat.zero_add] at t1
    exact ⟨t2, t1⟩

theorem C20_poll_loop_bounded_witness :
    pollCount (ready_loop readyWorker.polls (decremented 60) 0).1 ≤ 60 ∧
    ((∀ k, k < 60 → (check_fd (readyWorker.polls k)).2 = 0) →
      pollCount (ready_loop readyWorker.polls (decremented 60) 0).1 = 60) ∧
    (∀ m, m < 60 → (∀ j, j < m → (check_fd (readyWorker.polls j)).2 = 0) →
      (check_fd (readyWorker.polls m)).2 ≠ 0 →
      pollCount (ready_loop readyWorker.polls (decremented 60) 0).1 = m + 1 ∧
      (ready_loop readyWorker.polls (decremented 60) 0).2 = (check_fd (readyWorker.polls m)).2) ∧
    (∀ env, 1 ≤ initial_sanity env) :=
  C20_poll_loop_bounded readyWorker.polls 60 (by decide)

/-! ## Theorems: what the detaching phases do not do -/

theorem check_fd_early (a : PollAnswer) : (check_fd a).1.any laterEvent = false := by
  unfold check_fd
  split_ifs <;> simp [laterEvent]

theorem poll_round_early (polls : Nat → PollAnswer) (k : Nat) :
    (poll_round polls k).1.any laterEvent = false := by
  unfold poll_round
  split_ifs <;> simp [laterEvent, check_fd_early]

theorem ready_loop_early (polls : Nat → PollAnswer) :
    ∀ n k, (ready_loop polls n k).1.any laterEvent = false := by
  intro n
  induction n with
  | zero => intro k; simp [ready_loop, poll_round_early]
  | succ n ih =>
    intro k
    unfold ready_loop
    split_ifs <;> simp [poll_round_early, ih]

theorem wait_for_ready_early (os : DaemonOS) (pid : Int) :
    (wait_for_ready os pid).trace.any laterEvent = false := by
  have h := ready_loop_early os.polls (decremented (initial_sanity os.bg_timeout)) 0
  simp only [wait_for_ready]
  generalize ready_loop os.polls (decremented (initial_sanity os.bg_timeout)) 0 = polled at h ⊢
  split_ifs <;> simp [laterEvent, h]

theorem redirect_one_early (fd target : Int) (evs : List Event)
    (h : redirect_one fd target = some evs) : evs.any laterEvent = false := by
  unfold redirect_one at h
  split_ifs at h <;> simp at h <;> subst h <;> simp [laterEvent]

theorem redirect_std_early (devnull : Nat → Int) :
    (redirect_std devnull).trace.any laterEvent = false := by
  unfold redirect_std
  split
  · simp [laterEvent]
  · rename_i e0 h0
    split
    · simp [laterEvent, redirect_one_early _ _ _ h0]
    · rename_i e1 h1
      split
      · simp [laterEvent, redirect_one_early _ _ _ h0, redirect_one_early _ _ _ h1]
      · rename_i e2 h2
        simp [redirect_one_early _ _ _ h0, redirect_one_early _ _ _ h1,
          redirect_one_early _ _ _ h2]

theorem daemonize_fork2_early (fds : Bool) (os : DaemonOS) :
    (daemonize_fork2 fds os).trace.any laterEvent = false := by
  unfold daemonize_fork2
  split_ifs <;>
    simp [Run.after, laterEvent, redirect_std_early, wait_for_ready_early]

theorem daemonize_early (fds : Bool) (os : DaemonOS) :
    (daemonize fds os).trace.any laterEvent = false := by
  unfold daemonize
  split_ifs <;> simp [Run.after, laterEvent, daemonize_fork2_early]

theorem reexec_early (argv : Option (List String)) (os : SupervisorOS) (nx : Nat) :
    (reexec argv os nx).1.any laterEvent = false := by
  unfold reexec
  split
  · simp
  · simp [laterEvent]
  · split_ifs <;> simp [laterEvent]

theorem rewait_early (argv : Option (List String)) (os : SupervisorOS) :
    ∀ (ws : List WaitAnswer) (i : Int) (nf nx : Nat),
      (rewait argv os ws i nf nx).trace.any laterEvent = false := by
  intro ws
  induction ws with
  | nil => intro i nf nx; simp [rewait]
  | cons w ws ih =>
    intro i nf nx
    have hx := reexec_early argv os nx
    unfold rewait
    rcases hre : reexec argv os nx with ⟨evs, b⟩
    rw [hre] at hx
    simp only at hx
    by_cases hj : os.fork nf = 0 <;> cases b <;> split_ifs <;>
      simp [Run.after, laterEvent, ih, hx, restore_prev, parent_setup, hj]

theorem reincarnate_protect_early (argv : Option (List String)) (os : SupervisorOS)
    (ws : List WaitAnswer) : (reincarnate_protect argv os ws).trace.any laterEvent = false := by
  unfold reincarnate_protect
  simp only
  split_ifs <;> simp [Run.after, laterEvent, rewait_early, parent_setup]

/-- The pipe, `daemonize` and `reincarnate_protect` perform no later action. -/
theorem main_detach_early (o : Opts) (os : MainOS) :
    (main_pipe o os).trace.any laterEvent = false ∧
    (main_daemonize o os).trace.any laterEvent = false ∧
    (main_reincarnate o os).trace.any laterEvent = false := by
  refine ⟨?_, ?_, ?_⟩
  · unfold main_pipe; split_ifs <;> simp [laterEvent]
  · unfold main_daemonize; split_ifs <;> simp [daemonize_early]
  · by_cases hre : o.reincarnate = true
    · simp only [main_reincarnate, hre, if_true]
      exact reincarnate_protect_early _ _ _
    · simp [main_reincarnate, hre]

/-! ## Theorems: the run of main up to the engine -/

/-- A run of `main` in which the engine initialisation is called: every
phase before it returned, the lock was granted, and the trace is the traces
of the phases one after the other. -/
theorem main_reaches_engine (o : Opts) (os : MainOS) (file : Option (List Nat))
    (h : initCalled (main o os file).run.trace = true) :
    (main_privileges o os).ending = .returned ∧
    (main o os file).run.ending = (main_engine o os).ending ∧
    (main o os file).run.trace =
      main_signals o.elegant_term ++ (main_pipe o os).trace ++ (main_daemonize o os).trace ++
        (main_reincarnate o os).trace ++ (main_privileges o os).trace ++
        (pid_file_read os.pidf file ++
          [.file_open_write true, .file_lock true,
           .file_write ((snprintf_d 32 os.pidf.getpid).take (strlen (snprintf_d 32 os.pidf.getpid)))]) ++
        (main_engine o os).trace := by
  have hq := quiet_initCalled _ (main_before_pidfile_quiet o os)
  have hr := quiet_initCalled _ (any_pidOrEngine_of _ (pid_file_read_quiet os.pidf file))
  by_cases hret : (main_before_pidfile o os).ending = .returned
  · rw [main_of_returned o os file hret] at h ⊢
    have hbefore := hret
    unfold main_before_pidfile at hbefore
    obtain ⟨h4, hpriv, t4⟩ := andThen_returned _ _ hbefore
    obtain ⟨h3, _, t3⟩ := andThen_returned _ _ h4
    obtain ⟨h2, _, t2⟩ := andThen_returned _ _ h3
    obtain ⟨_, _, t1⟩ := andThen_returned _ _ h2
    have htrace : (main_before_pidfile o os).trace =
        main_signals o.elegant_term ++ (main_pipe o os).trace ++ (main_daemonize o os).trace ++
          (main_reincarnate o os).trace ++ (main_privileges o os).trace := by
      unfold main_before_pidfile
      rw [t4, t3, t2, t1]
    rcases pid_file_sequence_cases os.pidf file with
      ⟨_, hrun⟩ | ⟨_, _, hend, ⟨tl, htr, htl⟩, _⟩ | ⟨_, _, hrun, _⟩
    · exfalso
      simp [hrun, Run.andThen, Run.after, initCalled_append, hq, hr] at h
      simp [initCalled] at h
    · exfalso
      have hne : ¬ (pid_file_sequence os.pidf file).run.ending = .returned := by
        rw [hend]; decide
      have ht := quiet_initCalled _ htl
      simp only [Run.andThen, hne, if_false, Run.after, htr, initCalled_append, hq, hr, ht] at h
      simp [initCalled] at h
    · refine ⟨hpriv, ?_, ?_⟩
      · simp [hrun, Run.andThen, Run.after]
      · simp only [hrun, Run.andThen, Run.after, if_true, htrace, List.append_assoc]
  · rw [main_of_not_returned o os file hret] at h
    rw [hq] at h
    exact absurd h (by decide)

theorem readyWrites_append (a b : List Event) :
    readyWrites (a ++ b) = readyWrites a ++ readyWrites b := by
  simp [readyWrites, List.filterMap_append]

theorem readyWrites_of_early (t : List Event) (h : t.any laterEvent = false) :
    readyWrites t = [] := by
  induction t with
  | nil => rfl
  | cons e t ih =>
    simp only [List.any_cons, Bool.or_eq_false_iff] at h
    have hcons : readyWrites (e :: t) = readyWrites [e] ++ readyWrites t := by
      rw [← readyWrites_append]; rfl
    rw [hcons, ih h.2]
    cases e <;> first | rfl | simp [laterEvent] at h

theorem readyWrites_main_privileges (o : Opts) (os : MainOS) :
    readyWrites (main_privileges o os).trace = [] := by
  unfold main_privileges
  split_ifs <;> rfl

theorem readyWrites_pid_file_read (os : PidFileOS) (file : Option (List Nat)) :
    readyWrites (pid_file_read os file) = [] := by
  unfold pid_file_read
  cases file with
  | none => rfl
  | some c => by_cases h : os.readable = true <;> simp [h, readyWrites]

/-- No value is written to the readiness channel before the engine
initialisation is called. -/
theorem readyWrites_before_engine (o : Opts) (os : MainOS) (file : Option (List Nat)) :
    readyWrites (main_signals o.elegant_term ++ (main_pipe o os).trace ++
      (main_daemonize o os).trace ++ (main_reincarnate o os).trace ++
      (main_privileges o os).trace ++
      (pid_file_read os.pidf file ++
        [.file_open_write true, .file_lock true,
         .file_write ((snprintf_d 32 os.pidf.getpid).take
           (strlen (snprintf_d 32 os.pidf.getpid)))])) = [] := by
  obtain ⟨e1, e2, e3⟩ := main_detach_early o os
  have hs : readyWrites (main_signals o.elegant_term) = [] := by
    cases o.elegant_term <;> rfl
  simp only [readyWrites_append, hs, readyWrites_of_early _ e1, readyWrites_of_early _ e2,
    readyWrites_of_early _ e3, readyWrites_main_privileges, readyWrites_pid_file_read]
  rfl

/-- C11 fails as stated: in this run with readiness sync the engine
initialisation fails, `main` returns 255 and no value at all was written to
the readiness channel. -/
theorem C11_no_value_on_init_failure :
    initCalled (main ncwait (engineOS false) none).run.trace = true ∧
    (main ncwait (engineOS false) none).run.ending = .ret 255 ∧
    readyWrites (main ncwait (engineOS false) none).run.trace = [] := by
  decide

/-- C11 as amended: on every run of `main` with readiness sync that calls the
engine initialisation, the value 1 is written to the readiness channel, once
and after the initialisation call, when the initialisation succeeded; when it
failed nothing is written to the channel: the last actions of `main` are the
failed call and the error message, and it returns 255. -/
theorem C11_readiness_value (o : Opts) (os : MainOS) (file : Option (List Nat))
    (hw : o.do_wait = true) (h : initCalled (main o os file).run.trace = true) :
    (os.init_ok = true →
      readyWrites (main o os file).run.trace = [1] ∧
      ∃ a b, (main o os file).run.trace = a ++ .init_and_modload true :: b ∧
        readyWrites a = [] ∧ readyWrites b = [1]) ∧
    (os.init_ok = false →
      readyWrites (main o os file).run.trace = [] ∧ (main o os file).run.ending = .ret 255 ∧
      ∃ a, (main o os file).run.trace
        = a ++ [.init_and_modload false, .stderr .engine_init_failed]) := by
  obtain ⟨_, hend, htr⟩ := main_reaches_engine o os file h
  have hpre := readyWrites_before_engine o os file
  constructor
  · intro hok
    have heng : ∃ b, (main_engine o os).trace = .init_and_modload true :: b ∧
        readyWrites b = [1] := by
      by_cases hwr : os.ready_write < 0 <;> by_cases hn : (o.nc && o.nf) = true <;>
        simp [main_engine, hok, hw, hwr, hn, readyWrites]
    obtain ⟨b, hb, hb1⟩ := heng
    refine ⟨?_, _, b, by rw [htr, hb], hpre, hb1⟩
    rw [htr, readyWrites_append, hpre, hb]
    simpa [readyWrites] using hb1
  · intro hfail
    have heng : main_engine o os =
        ⟨[.init_and_modload false, .stderr .engine_init_failed], .ret 255⟩ := by
      simp [main_engine, hfail]
    rw [hend, htr, readyWrites_append, hpre, heng]
    exact ⟨rfl, rfl, _, rfl⟩

theorem C11_readiness_value_witness :
    ((engineOS true).init_ok = true →
      readyWrites (main ncwait (engineOS true) none).run.trace = [1] ∧
      ∃ a b, (main ncwait (engineOS true) none).run.trace = a ++ .init_and_modload true :: b ∧
        readyWrites a = [] ∧ readyWrites b = [1]) ∧
    ((engineOS true).init_ok = false →
      readyWrites (main ncwait (engineOS true) none).run.trace = [] ∧
      (main ncwait (engineOS true) none).run.ending = .ret 255 ∧
      ∃ a, (main ncwait (engineOS true) none).run.trace
        = a ++ [.init_and_modload false, .stderr .engine_init_failed]) :=
  C11_readiness_value ncwait (engineOS true) none rfl (by decide)

/-! ## Theorems: order of the startup steps -/

theorem stage_of_early_event (e : Event) (n : Nat) (h : laterEvent e = false)
    (hs : startupStage e = some n) : n = 1 := by
  cases e <;> first
    | (simp [laterEvent] at h; done)
    | (simp [startupStage] at hs; omega)
    | (simp [startupStage] at hs; done)

theorem stages_of_early (t : List Event) (h : t.any laterEvent = false) :
    ∀ s ∈ t.filterMap startupStage, s = 1 := by
  induction t with
  | nil => intro s hs; simp at hs
  | cons e t ih =>
    simp only [List.any_cons, Bool.or_eq_false_iff] at h
    intro s hs
    rw [List.filterMap_cons] at hs
    cases hst : startupStage e with
    | none =>
      rw [hst] at hs
      exact ih h.2 s hs
    | some n =>
      rw [hst] at hs
      rcases List.mem_cons.mp hs with hs | hs
      · subst hs
        exact stage_of_early_event e s h.1 hst
      · exact ih h.2 s hs

theorem stages_main_signals (e : Bool) : (main_signals e).filterMap startupStage = [0, 0] := by
  cases e <;> rfl

theorem stages_main_privileges (o : Opts) (os : MainOS)
    (h : (main_privileges o os).ending = .returned) :
    (∀ s ∈ (main_privileges o os).trace.filterMap startupStage, s = 2) ∧
    2 ∈ (main_privileges o os).trace.filterMap startupStage := by
  unfold main_privileges at h ⊢
  split_ifs at h ⊢ <;> simp [startupStage] at h ⊢

theorem stages_pid_file_read (os : PidFileOS) (file : Option (List Nat)) :
    (pid_file_read os file).filterMap startupStage = [] := by
  unfold pid_file_read
  cases file with
  | none => rfl
  | some c => by_cases h : os.readable = true <;> simp [h, startupStage]

theorem stages_main_engine (o : Opts) (os : MainOS) :
    (main_engine o os).trace.filterMap startupStage = [4] := by
  unfold main_engine
  split_ifs <;> simp [startupStage, SIGINT, SIGILL, SIGTERM]

/-- A list of stages made of zeros, then ones, then twos, then 3 and 4 is
in order. -/
theorem stages_in_order (a b : List Nat) (ha : ∀ s ∈ a, s = 1) (hb : ∀ s ∈ b, s = 2) :
    ([0, 0] ++ a ++ b ++ [3] ++ [4]).Pairwise (· ≤ ·) := by
  have pa : a.Pairwise (· ≤ ·) :=
    List.pairwise_of_forall_mem_list (fun x hx y hy => by rw [ha x hx, ha y hy])
  have pb : b.Pairwise (· ≤ ·) :=
    List.pairwise_of_forall_mem_list (fun x hx y hy => by rw [hb x hx, hb y hy])
  have h01 : ∀ x ∈ [0, 0] ++ a, x ≤ 1 := by
    intro x hx
    rcases List.mem_append.mp hx with hx | hx
    · simp at hx; omega
    · rw [ha x hx]
  have h012 : ∀ x ∈ [0, 0] ++ a ++ b, x ≤ 2 := by
    intro x hx
    rcases List.mem_append.mp hx with hx | hx
    · have := h01 x hx; omega
    · rw [hb x hx]
  rw [List.pairwise_append]
  refine ⟨?_, by simp, ?_⟩
  · rw [List.pairwise_append]
    refine ⟨?_, by simp, ?_⟩
    · rw [List.pairwise_append]
      refine ⟨?_, pb, ?_⟩
      · rw [List.pairwise_append]
        refine ⟨by simp, pa, ?_⟩
        intro x hx y hy
        rw [ha y hy]
        simp at hx
        omega
      · intro x hx y hy
        rw [hb y hy]
        have := h01 x hx
        omega
    · intro x hx y hy
      simp at hy
      have := h012 x hx
      omega
  · intro x hx y hy
    simp only [List.mem_singleton] at hy
    rcases List.mem_append.mp hx with hx | hx
    · have := h012 x hx
      omega
    · simp only [List.mem_singleton] at hx
      omega

/-- C19 fails as stated: in this background start that reaches the engine
initialisation the steps are not in the order of the claim (the handlers
are installed and the process detaches before the lock on the pid file is
requested); they are in the order of the code. -/
theorem C19_spec_order_violated :
    initCalled (main ncwait (engineOS true) none).run.trace = true ∧
    ¬ ((main ncwait (engineOS true) none).run.trace.filterMap specStage).Pairwise (· ≤ ·) ∧
    (main ncwait (engineOS true) none).run.trace.filterMap specStage = [3, 3, 1, 1, 2, 2, 2, 0, 4] := by
  decide

/-- C19 as amended: on every run of `main` that reaches the engine
initialisation, the SIGILL/SIGTERM handlers are installed first, then the
process detaches (when it does), then the priority and privilege settings
are applied, then the lock on the pid file is acquired, then the engine is
initialised: every action of an earlier step comes before every action of a
later step, and the handlers, the settings, the lock and the initialisation
all occur. -/
theorem C19_startup_order (o : Opts) (os : MainOS) (file : Option (List Nat))
    (h : initCalled (main o os file).run.trace = true) :
    ((main o os file).run.trace.filterMap startupStage).Pairwise (· ≤ ·) ∧
    0 ∈ (main o os file).run.trace.filterMap startupStage ∧
    2 ∈ (main o os file).run.trace.filterMap startupStage ∧
    3 ∈ (main o os file).run.trace.filterMap startupStage ∧
    4 ∈ (main o os file).run.trace.filterMap startupStage ∧
    lockGranted (main o os file).run.trace = true := by
  obtain ⟨hpriv, _, htr⟩ := main_reaches_engine o os file h
  obtain ⟨e1, e2, e3⟩ := main_detach_early o os
  obtain ⟨hp, hp2⟩ := stages_main_privileges o os hpriv
  have hdetach : ∀ s ∈ ((main_pipe o os).trace ++ (main_daemonize o os).trace ++
      (main_reincarnate o os).trace).filterMap startupStage, s = 1 := by
    apply stages_of_early
    simp [e1, e2, e3]
  have hst : (main o os file).run.trace.filterMap startupStage =
      [0, 0] ++ ((main_pipe o os).trace ++ (main_daemonize o os).trace ++
          (main_reincarnate o os).trace).filterMap startupStage ++
        (main_privileges o os).trace.filterMap startupStage ++ [3] ++ [4] := by
    rw [htr]
    simp only [List.filterMap_append, stages_main_signals, stages_pid_file_read,
      stages_main_engine, List.append_assoc]
    simp [startupStage]
  refine ⟨?_, ?_, ?_, ?_, ?_, ?_⟩
  · rw [hst]
    exact stages_in_order _ _ hdetach hp
  · rw [hst]; simp
  · rw [hst]; simp [hp2]
  · rw [hst]; simp
  · rw [hst]; simp
  · rw [htr]
    simp [lockGranted]

theorem C19_startup_order_witness :
    ((main ncwait (engineOS true) none).run.trace.filterMap startupStage).Pairwise (· ≤ ·) ∧
    0 ∈ (main ncwait (engineOS true) none).run.trace.filterMap startupStage ∧
    2 ∈ (main ncwait (engineOS true) none).run.trace.filterMap startupStage ∧
    3 ∈ (main ncwait (engineOS true) none).run.trace.filterMap startupStage ∧
    4 ∈ (main ncwait (engineOS true) none).run.trace.filterMap startupStage ∧
    lockGranted (main ncwait (engineOS true) none).run.trace = true :=
  C19_startup_order ncwait (engineOS true) none (by decide)

/-! ## Theorems: redirection of the standard descriptors -/

theorem lowestFree_spec (slot : Nat → Option FileRef) :
    ∀ (count start n : Nat), lowestFree slot count start = some n →
      start ≤ n ∧ n < start + count ∧ slot n = none ∧
      ∀ g, start ≤ g → g < n → slot g ≠ none := by
  intro count
  induction count with
  | zero => intro start n h; simp [lowestFree] at h
  | succ c ih =>
    intro start n h
    unfold lowestFree at h
    split_ifs at h with hfree
    · simp only [Option.some.injEq] at h
      subst h
      refine ⟨Nat.le_refl _, by omega, by simpa using hfree, ?_⟩
      intro g h1 h2
      omega
    · obtain ⟨a, b, c1, d⟩ := ih (start + 1) n h
      refine ⟨by omega, by omega, c1, ?_⟩
      intro g h1 h2
      by_cases hg : g = start
      · subst hg
        intro hnone
        exact hfree (by simp [hnone])
      · exact d g (by omega) h2

theorem open_result_spec (tab : FdTable) (h : 0 ≤ open_result tab) :
    ∃ n : Nat, open_result tab = n ∧ n < tab.size ∧ tab.slot n = none ∧
      ∀ g, g < n → tab.slot g ≠ none := by
  unfold open_result at h ⊢
  cases hl : lowestFree tab.slot tab.size 0 with
  | none => rw [hl] at h; simp at h
  | some n =>
    obtain ⟨_, b, c, d⟩ := lowestFree_spec tab.slot tab.size 0 n hl
    exact ⟨n, rfl, by omega, c, fun g hg => d g (Nat.zero_le _) hg⟩

/-- One redirection on a table in which the descriptors below `target` are
open and the `open` succeeds: afterwards `target` refers to the null device
and every other descriptor is as before. -/
theorem redirect_step (tab : FdTable) (target : Nat)
    (hbelow : ∀ g, g < target → tab.slot g ≠ none) (hopen : 0 ≤ open_result tab) :
    ∃ evs, redirect_one (open_result tab) target = some evs ∧
      (tab.apply evs).size = tab.size ∧
      ∀ d, (tab.apply evs).slot d = if d = target then some .null_device else tab.slot d := by
  obtain ⟨n, hn, hsize, hfree, hlow⟩ := open_result_spec tab hopen
  have hge : target ≤ n := by
    by_contra hlt
    exact hbelow n (by omega) hfree
  rw [hn]
  have hneg : ¬ ((n : Int) < 0) := by omega
  by_cases heq : n = target
  · subst heq
    refine ⟨[.open_devnull n], by simp [redirect_one], ?_, ?_⟩
    · simp [FdTable.apply, FdTable.step, hneg]
    · intro d
      simp [FdTable.apply, FdTable.step, hneg]
  · have hne : ¬ ((n : Int) = (target : Int)) := by omega
    refine ⟨[.open_devnull n, .dup2 n target, .close n], by simp [redirect_one, hne], ?_, ?_⟩
    · simp only [FdTable.apply, List.foldl_cons, List.foldl_nil, FdTable.step, hneg, if_false]
      split_ifs <;> rfl
    · intro d
      have ht : ¬ ((target : Int) < 0) := by omega
      have hsz : ¬ (tab.size ≤ target) := by omega
      simp only [FdTable.apply, List.foldl_cons, List.foldl_nil, FdTable.step, hneg, if_false,
        Int.toNat_ofNat, ht, if_true, Option.isNone_some, hsz, or_self, Bool.false_eq_true]
      by_cases hd : d = target
      · subst hd
        simp [heq, Ne.symm heq]
      · by_cases hdn : d = n
        · subst hdn
          simp [hd, hfree]
        · simp [hd, hdn]

theorem apply_append (tab : FdTable) (a b : List Event) :
    tab.apply (a ++ b) = (tab.apply a).apply b := by
  simp [FdTable.apply, List.foldl_append]

theorem redirect_std_returned (devnull : Nat → Int)
    (h : (redirect_std devnull).ending = .returned) :
    ∃ e0 e1 e2, redirect_one (devnull 0) 0 = some e0 ∧ redirect_one (devnull 1) 1 = some e1 ∧
      redirect_one (devnull 2) 2 = some e2 ∧
      redirect_std devnull = ⟨e0 ++ e1 ++ e2, .returned⟩ := by
  rcases h0 : redirect_one (devnull 0) 0 with _ | e0
  · simp [redirect_std, h0] at h
  rcases h1 : redirect_one (devnull 1) 1 with _ | e1
  · simp [redirect_std, h0, h1] at h
  rcases h2 : redirect_one (devnull 2) 2 with _ | e2
  · simp [redirect_std, h0, h1, h2] at h
  exact ⟨e0, e1, e2, rfl, rfl, rfl, by simp [redirect_std, h0, h1, h2]⟩

theorem redirect_one_some (fd target : Int) (evs : List Event)
    (h : redirect_one fd target = some evs) : 0 ≤ fd := by
  by_contra hneg
  have : redirect_one fd target = none := by simp [redirect_one, Int.not_le.mp hneg]
  rw [this] at h
  exact absurd h (by simp)

/-- C17: the worker starts the redirection with any descriptor table, and the
kernel answers each `open` of the null device with the lowest free
descriptor; when the three opens succeed, descriptors 0, 1 and 2 refer to the
null device afterwards and every other descriptor is open or closed, and
refers to the same file, as before: no temporary descriptor stays open. -/
theorem C17_std_redirected (tab : FdTable)
    (h : (redirect_std (kernel_devnull tab)).ending = .returned) :
    (tab.apply (redirect_std (kernel_devnull tab)).trace).slot 0 = some .null_device ∧
    (tab.apply (redirect_std (kernel_devnull tab)).trace).slot 1 = some .null_device ∧
    (tab.apply (redirect_std (kernel_devnull tab)).trace).slot 2 = some .null_device ∧
    (∀ d, 3 ≤ d → (tab.apply (redirect_std (kernel_devnull tab)).trace).slot d = tab.slot d) ∧
    (tab.apply (redirect_std (kernel_devnull tab)).trace).size = tab.size := by
  obtain ⟨e0, e1, e2, h0, h1, h2, hrun⟩ := redirect_std_returned _ h
  rw [hrun]
  simp only [kernel_devnull] at h0 h1 h2
  rw [h0] at h1 h2
  simp only [Option.getD_some] at h1 h2
  rw [h1] at h2
  simp only [Option.getD_some] at h2
  obtain ⟨evs0, he0, hs0, hslot0⟩ := redirect_step tab 0 (fun g hg => absurd hg (by omega))
    (redirect_one_some _ _ _ h0)
  have he0' : redirect_one (open_result tab) 0 = some evs0 := by simpa using he0
  rw [h0] at he0'
  simp only [Option.some.injEq] at he0'
  subst he0'
  obtain ⟨evs1, he1, hs1, hslot1⟩ := redirect_step (tab.apply e0) 1
    (fun g hg => by
      have : g = 0 := by omega
      subst this
      rw [hslot0 0]
      simp) (redirect_one_some _ _ _ h1)
  have he1' : redirect_one (open_result (tab.apply e0)) 1 = some evs1 := by simpa using he1
  rw [h1] at he1'
  simp only [Option.some.injEq] at he1'
  subst he1'
  obtain ⟨evs2, he2, hs2, hslot2⟩ := redirect_step ((tab.apply e0).apply e1) 2
    (fun g hg => by
      rw [hslot1 g]
      by_cases hg1 : g = 1
      · simp [hg1]
      · have : g = 0 := by omega
        subst this
        rw [hslot0 0]
        simp) (redirect_one_some _ _ _ h2)
  have he2' : redirect_one (open_result ((tab.apply e0).apply e1)) 2 = some evs2 := by
    simpa using he2
  rw [h2] at he2'
  simp only [Option.some.injEq] at he2'
  subst he2'
  simp only [apply_append]
  refine ⟨?_, ?_, ?_, ?_, ?_⟩
  · rw [hslot2 0, hslot1 0, hslot0 0]; simp
  · rw [hslot2 1, hslot1 1]; simp
  · rw [hslot2 2]; simp
  · intro d hd
    rw [hslot2 d, hslot1 d, hslot0 d]
    have a : ¬ d = 2 := by omega
    have b : ¬ d = 1 := by omega
    have c : ¬ d = 0 := by omega
    simp [a, b, c]
  · rw [hs2, hs1, hs0]

theorem C17_std_redirected_witness :
    (sampleTable.apply (redirect_std (kernel_devnull sampleTable)).trace).slot 0
      = some .null_device ∧
    (sampleTable.apply (redirect_std (kernel_devnull sampleTable)).trace).slot 1
      = some .null_device ∧
    (sampleTable.apply (redirect_std (kernel_devnull sampleTable)).trace).slot 2
      = some .null_device ∧
    (∀ d, 3 ≤ d →
      (sampleTable.apply (redirect_std (kernel_devnull sampleTable)).trace).slot d
        = sampleTable.slot d) ∧
    (sampleTable.apply (redirect_std (kernel_devnull sampleTable)).trace).size
      = sampleTable.size :=
  C17_std_redirected sampleTable (by decide)

/-- The run of the redirection on the sample table: the first two opens
return 2, which is duplicated and closed again; the third returns 2 and is
kept. -/
theorem redirect_std_sample :
    redirect_std (kernel_devnull sampleTable) =
      ⟨[.open_devnull 2, .dup2 2 0, .close 2, .open_devnull 2, .dup2 2 1, .close 2,
        .open_devnull 2], .returned⟩ := by
  decide

/-! ## Theorems: argument errors -/

/-- C18 fails as stated: `-u` or `-g` without its argument, and an unknown
option, end the process with exit code 1. -/
theorem C18_usage_errors_exit_one :
    (main_arguments (fun _ => true) ["freeswitch", "-u"]).1
      = ⟨[.stderr .requires_argument], .exited 1⟩ ∧
    (main_arguments (fun _ => true) ["freeswitch", "-g", "-nc"]).1
      = ⟨[.stderr .requires_argument], .exited 1⟩ ∧
    (main_arguments (fun _ => true) ["freeswitch", "-bogus"]).1
      = ⟨[.stderr .unknown_option], .exited 1⟩ := by
  decide

theorem parse_option_stop (a : String) (next : Option String) (alloc_ok : Bool)
    (st : ParseState) (r : Run) (h : parse_option a next alloc_ok st = .stop r) :
    r = ⟨[.stdout .usage], .exited EXIT_SUCCESS⟩ ∨ r = ⟨[.stdout .version], .exited EXIT_SUCCESS⟩ ∨
    r = ⟨[.stderr .requires_argument], .exited EXIT_FAILURE⟩ ∨
    r = ⟨[.stderr .unknown_option], .exited EXIT_FAILURE⟩ ∨
    r = ⟨[.stderr .must_specify], .ret 255⟩ ∨
    r = ⟨[.stderr .allocation_error], .ret 255⟩ := by
  cases hc : classify a <;> simp only [parse_option, hc] at h <;> first
    | (simp only [ParseStep.stop.injEq] at h; subst h; simp)
    | (split_ifs at h <;> simp only [ParseStep.stop.injEq] at h <;> subst h <;> simp)
    | (exact absurd h (by simp))

/-- How argument parsing can end: the loop ends normally without output, or
the usage or version text is printed and the process exits with 0, or an
option lacks its argument or is unknown and the process exits with
`EXIT_FAILURE`, or a directory option lacks its argument, or the buffer for
its argument cannot be allocated, and `main` returns 255. -/
theorem parse_args_endings (malloc_ok : Nat → Bool) :
    ∀ (n x : Nat) (args : List String) (st : ParseState),
    args.length ≤ n →
    (parse_args malloc_ok x args st).1 = ⟨[], .returned⟩ ∨
    (parse_args malloc_ok x args st).1 = ⟨[.stdout .usage], .exited EXIT_SUCCESS⟩ ∨
    (parse_args malloc_ok x args st).1 = ⟨[.stdout .version], .exited EXIT_SUCCESS⟩ ∨
    (parse_args malloc_ok x args st).1 = ⟨[.stderr .requires_argument], .exited EXIT_FAILURE⟩ ∨
    (parse_args malloc_ok x args st).1 = ⟨[.stderr .unknown_option], .exited EXIT_FAILURE⟩ ∨
    (parse_args malloc_ok x args st).1 = ⟨[.stderr .must_specify], .ret 255⟩ ∨
    (parse_args malloc_ok x args st).1 = ⟨[.stderr .allocation_error], .ret 255⟩ := by
  intro n
  induction n with
  | zero =>
    intro x args st h
    have : args = [] := List.length_eq_zero.mp (by omega)
    subst this
    simp [parse_args]
  | succ n ih =>
    intro x args st h
    cases args with
    | nil => simp [parse_args]
    | cons a rest =>
      simp only [List.length_cons] at h
      unfold parse_args
      split_ifs with hempty
      · exact ih _ rest st (by omega)
      · cases hstep : parse_option a rest.head? (malloc_ok (x + 1)) st with
        | stop r =>
          exact Or.inr (parse_option_stop a _ _ st r hstep)
        | next st1 =>
          exact ih _ rest st1 (by omega)
        | next2 st1 =>
          cases rest with
          | nil => simp
          | cons b rest2 =>
            simp only [List.length_cons] at h
            exact ih _ rest2 st1 (by omega)

theorem parse_args_stop (malloc_ok : Nat → Bool) (x : Nat) (a : String) (rest : List String)
    (st : ParseState) (r : Run) (ha : a ≠ "")
    (h : parse_option a rest.head? (malloc_ok (x + 1)) st = .stop r) :
    (parse_args malloc_ok x (a :: rest) st).1 = r := by
  rw [parse_args, if_neg ha, h]

theorem classify_dir (a : String) (k : DirKind) (h : dir_option a = some k) :
    a ≠ "" ∧ classify a = .dir k := by
  have hmem : a ∈ ["-conf", "-mod", "-log", "-run", "-db", "-scripts", "-htdocs", "-base",
      "-temp", "-storage", "-cache", "-recordings", "-grammar", "-certs", "-sounds",
      "-cfgname"] := by
    by_contra hn
    simp only [List.mem_cons, List.mem_singleton, List.not_mem_nil, not_or, or_false] at hn
    obtain ⟨h1, h2, h3, h4, h5, h6, h7, h8, h9, h10, h11, h12, h13, h14, h15, h16⟩ := hn
    simp only [dir_option, if_neg h1, if_neg h2, if_neg h3, if_neg h4, if_neg h5, if_neg h6,
      if_neg h7, if_neg h8, if_neg h9, if_neg h10, if_neg h11, if_neg h12, if_neg h13,
      if_neg h14, if_neg h15, if_neg h16] at h
    exact absurd h (by simp)
  simp only [List.mem_cons, List.mem_singleton, List.not_mem_nil, or_false] at hmem
  rcases hmem with e | e | e | e | e | e | e | e | e | e | e | e | e | e | e | e <;>
    subst e <;> simp [dir_option] at h <;> subst h <;> exact ⟨by decide, by decide⟩

theorem classify_unknown (a : String) (h : known_option a = false) : classify a = .unknown := by
  simp only [known_option, Bool.or_eq_false_iff, decide_eq_false_iff_not, List.mem_cons,
    List.mem_singleton, not_or, List.not_mem_nil, not_false_eq_true, and_true] at h
  obtain ⟨hk, hd⟩ := h
  have hnone : dir_option a = none := by
    cases hdo : dir_option a with
    | none => rfl
    | some k => rw [hdo] at hd; simp at hd
  simp [classify, hk, hnone]

/-- C18 as amended: in the loop over the arguments, a directory or file-name
option (`-conf`, `-mod`, `-log`, `-run`, `-db`, `-scripts`, `-htdocs`,
`-base`, `-temp`, `-storage`, `-cache`, `-recordings`, `-grammar`, `-certs`,
`-sounds`, `-cfgname`) without its argument makes `main` return 255, whatever
`malloc` would answer; `-u` or `-g` without its argument, and an unknown
option, make the process exit with `EXIT_FAILURE`, which is 1. -/
theorem C18_usage_error_codes (malloc_ok : Nat → Bool) (x : Nat) (a : String)
    (rest : List String) (st : ParseState) :
    ((dir_option a).isSome = true → missing_arg rest.head? = true →
      (parse_args malloc_ok x (a :: rest) st).1 = ⟨[.stderr .must_specify], .ret 255⟩) ∧
    (a = "-u" ∨ a = "-g" → missing_arg rest.head? = true →
      (parse_args malloc_ok x (a :: rest) st).1
        = ⟨[.stderr .requires_argument], .exited EXIT_FAILURE⟩) ∧
    (a ≠ "" → known_option a = false →
      (parse_args malloc_ok x (a :: rest) st).1
        = ⟨[.stderr .unknown_option], .exited EXIT_FAILURE⟩) ∧
    EXIT_FAILURE = 1 := by
  refine ⟨?_, ?_, ?_, rfl⟩
  · intro hd hm
    cases hdo : dir_option a with
    | none => rw [hdo] at hd; simp at hd
    | some k =>
      obtain ⟨hne, hc⟩ := classify_dir a k hdo
      apply parse_args_stop malloc_ok x a rest st _ hne
      simp [parse_option, hc, hm]
  · intro ha hm
    rcases ha with ha | ha <;> subst ha
    · apply parse_args_stop malloc_ok x _ rest st _ (by decide)
      have hc : classify "-u" = .u := by decide
      simp [parse_option, hc, hm]
    · apply parse_args_stop malloc_ok x _ rest st _ (by decide)
      have hc : classify "-g" = .g := by decide
      simp [parse_option, hc, hm]
  · intro hne hk
    apply parse_args_stop malloc_ok x a rest st _ hne
    simp [parse_option, classify_unknown a hk]

theorem C18_usage_error_codes_witness :
    (parse_args (fun _ => true) 1 ["-conf", "-nc"] (ParseState.initial none)).1
      = ⟨[.stderr .must_specify], .ret 255⟩ ∧
    (parse_args (fun _ => true) 1 ["-u"] (ParseState.initial none)).1
      = ⟨[.stderr .requires_argument], .exited EXIT_FAILURE⟩ ∧
    (parse_args (fun _ => true) 1 ["-bogus", "-nc"] (ParseState.initial none)).1
      = ⟨[.stderr .unknown_option], .exited EXIT_FAILURE⟩ :=
  ⟨(C18_usage_error_codes (fun _ => true) 1 "-conf" ["-nc"] (ParseState.initial none)).1
      (by decide) (by decide),
    (C18_usage_error_codes (fun _ => true) 1 "-u" [] (ParseState.initial none)).2.1
      (Or.inl rfl) (by decide),
    (C18_usage_error_codes (fun _ => true) 1 "-bogus" ["-nc"] (ParseState.initial none)).2.2.1
      (by decide) (by decide)⟩

/-- A directory option whose argument is there, when `malloc` fails: the
message `Allocation error` and the return value 255. -/
theorem parse_args_allocation_error (malloc_ok : Nat → Bool) (x : Nat) (a : String)
    (rest : List String) (st : ParseState) (hd : (dir_option a).isSome = true)
    (hm : missing_arg rest.head? = false) (hf : malloc_ok (x + 1) = false) :
    (parse_args malloc_ok x (a :: rest) st).1 = ⟨[.stderr .allocation_error], .ret 255⟩ := by
  cases hdo : dir_option a with
  | none => rw [hdo] at hd; simp at hd
  | some k =>
    obtain ⟨hne, hc⟩ := classify_dir a k hdo
    apply parse_args_stop malloc_ok x a rest st _ hne
    simp [parse_option, hc, hm, hf]

/-- Runs of the loop over the arguments: a plain start, a directory option
with its argument when the allocation fails, and `-u` with its argument. -/
theorem main_arguments_samples :
    (main_arguments (fun _ => true) ["freeswitch", "-nc", "-conf", "/etc/fs"]).1
      = ⟨[], .returned⟩ ∧
    (main_arguments (fun _ => false) ["freeswitch", "-nc", "-conf", "/etc/fs"]).1
      = ⟨[.stderr .allocation_error], .ret 255⟩ ∧
    (main_arguments (fun _ => true) ["freeswitch", "-u", "daemon", "-help"]).1
      = ⟨[.stdout .usage], .exited EXIT_SUCCESS⟩ := by
  decide

/-! ## Theorems: the stop command without a valid pid -/

theorem kill_background_no_pid (content : List Nat) (h : (fscanf_d content 0).2 ≤ 0) :
    kills (freeswitch_kill_background true (some content)).run.trace = [] ∧
    (freeswitch_kill_background true (some content)).run.ending = .ret 0 := by
  have hn : ¬ (fscanf_d content 0).2 > 0 := by omega
  simp only [freeswitch_kill_background, not_true_eq_false, if_false, hn, List.append_nil]
  split_ifs <;> exact ⟨rfl, trivial⟩

theorem fscanf_d_none (content : List Nat) (h : scan_decimal content = none) :
    (fscanf_d content 0).1 ≠ 1 ∧ (fscanf_d content 0).2 = 0 := by
  simp only [fscanf_d, h]
  split_ifs <;> exact ⟨by decide, rfl⟩

theorem fscanf_d_some (content : List Nat) (v : Int) (h : scan_decimal content = some v) :
    fscanf_d content 0 = (1, to_int v) := by
  simp only [fscanf_d, h]

theorem kill_background_pid (content : List Nat) (h : (fscanf_d content 0).2 > 0) :
    kills (freeswitch_kill_background true (some content)).run.trace
      = [((fscanf_d content 0).2, SIGTERM)] := by
  simp only [freeswitch_kill_background, not_true_eq_false, if_false, h, if_true]
  split_ifs <;> rfl

/-- C21 fails as stated: a pid file holding the negative number -2147483649
makes the stop command send SIGTERM to process 2147483647, and one holding
-4294967295 makes it send SIGTERM to process 1. -/
theorem C21_negative_text_signals :
    kills (freeswitch_kill_background true (some (bytes "-2147483649"))).run.trace
      = [(2147483647, SIGTERM)] ∧
    kills (freeswitch_kill_background true (some (bytes "-4294967295"))).run.trace
      = [(1, SIGTERM)] := by
  decide

/-- C21 as amended: the stop command calls `kill` only with a strictly
positive pid (and only with SIGTERM), whatever the pid file holds and whether
or not it can be opened. On a pid file that is opened, no `kill` is made and
the function returns 0 when the content starts with no number (unparsable
text, an empty file), where `pid` keeps its initial 0, and when it starts
with zero or with a negative number not below -2147483648, the least `int`
(so for the decimal text of such a number followed by nothing or by a byte
that is not a digit). A number outside the range of `int` is stored
truncated to 32 bits, and the signal goes to the truncated value when that
is positive. -/
theorem C21_kill_only_positive_pid :
    (∀ (readable : Bool) (file : Option (List Nat)) (q : Int × Nat),
      q ∈ kills (freeswitch_kill_background readable file).run.trace →
        0 < q.1 ∧ q.2 = SIGTERM) ∧
    (∀ content : List Nat, (fscanf_d content 0).2 ≤ 0 →
      kills (freeswitch_kill_background true (some content)).run.trace = [] ∧
      (freeswitch_kill_background true (some content)).run.ending = .ret 0) ∧
    (∀ content : List Nat, scan_decimal content = none →
      kills (freeswitch_kill_background true (some content)).run.trace = [] ∧
      (freeswitch_kill_background true (some content)).run.ending = .ret 0) ∧
    (∀ (content : List Nat) (v : Int), scan_decimal content = some v → v ≤ 0 → -(2 ^ 31) ≤ v →
      kills (freeswitch_kill_background true (some content)).run.trace = [] ∧
      (freeswitch_kill_background true (some content)).run.ending = .ret 0) ∧
    (∀ (v : Int) (rest : List Nat), (∀ c, rest.head? = some c → isdigit c = false) →
      v ≤ 0 → -(2 ^ 31) ≤ v →
      kills (freeswitch_kill_background true (some (fmt_d v ++ rest))).run.trace = [] ∧
      (freeswitch_kill_background true (some (fmt_d v ++ rest))).run.ending = .ret 0) ∧
    (∀ (content : List Nat) (v : Int), scan_decimal content = some v →
      kills (freeswitch_kill_background true (some content)).run.trace
        = if to_int v > 0 then [(to_int v, SIGTERM)] else []) := by
  have hnonpos : ∀ (content : List Nat) (v : Int), scan_decimal content = some v → v ≤ 0 →
      -(2 ^ 31) ≤ v →
      kills (freeswitch_kill_background true (some content)).run.trace = [] ∧
      (freeswitch_kill_background true (some content)).run.ending = .ret 0 := by
    intro content v hs h0 h1
    refine kill_background_no_pid content ?_
    rw [fscanf_d_some content v hs]
    show to_int v ≤ 0
    rw [to_int_of_range v h1 (by omega)]
    exact h0
  refine ⟨?_, kill_background_no_pid, ?_, hnonpos, ?_, ?_⟩
  · intro readable file q hq
    cases file with
    | none => simp [freeswitch_kill_background, kills] at hq
    | some content =>
      cases readable with
      | false => simp [freeswitch_kill_background, kills] at hq
      | true =>
        by_cases hp : (fscanf_d content 0).2 > 0
        · rw [kill_background_pid content hp] at hq
          simp only [List.mem_singleton] at hq
          subst hq
          exact ⟨hp, rfl⟩
        · rw [(kill_background_no_pid content (by omega)).1] at hq
          exact absurd hq (List.not_mem_nil q)
  · intro content hs
    exact kill_background_no_pid content (by rw [(fscanf_d_none content hs).2])
  · intro v rest hr h0 h1
    exact hnonpos _ v (scan_decimal_fmt_d_append v rest hr) h0 h1
  · intro content v hs
    have hf := fscanf_d_some content v hs
    by_cases hp : to_int v > 0
    · have hp2 : (fscanf_d content 0).2 > 0 := by rw [hf]; exact hp
      rw [kill_background_pid content hp2, hf]
      simp only [hp, if_true]
    · have hp2 : (fscanf_d content 0).2 ≤ 0 := by
        rw [hf]
        show to_int v ≤ 0
        omega
      rw [(kill_background_no_pid content hp2).1]
      simp only [hp, if_false]

theorem C21_kill_only_positive_pid_witness :
    (kills (freeswitch_kill_background true (some (bytes "not a pid"))).run.trace = [] ∧
      (freeswitch_kill_background true (some (bytes "not a pid"))).run.ending = .ret 0) ∧
    (kills (freeswitch_kill_background true (some (bytes ""))).run.trace = [] ∧
      (freeswitch_kill_background true (some (bytes ""))).run.ending = .ret 0) ∧
    (kills (freeswitch_kill_background true (some (bytes "0\n"))).run.trace = [] ∧
      (freeswitch_kill_background true (some (bytes "0\n"))).run.ending = .ret 0) ∧
    (kills (freeswitch_kill_background true (some (bytes "-4321"))).run.trace = [] ∧
      (freeswitch_kill_background true (some (bytes "-4321"))).run.ending = .ret 0) :=
  ⟨C21_kill_only_positive_pid.2.2.1 (bytes "not a pid") (by decide),
    C21_kill_only_positive_pid.2.2.1 (bytes "") (by decide),
    C21_kill_only_positive_pid.2.2.2.1 (bytes "0\n") 0 (by decide) (by decide) (by decide),
    C21_kill_only_positive_pid.2.2.2.1 (bytes "-4321") (-4321) (by decide) (by decide)
      (by decide)⟩

/-- The traces of the stop command on an empty pid file and on one holding a
negative number. -/
theorem kill_background_samples :
    (freeswitch_kill_background true (some (bytes ""))).run.trace
      = [.set_globals, .fopen true, .fscanf (-1), .log_error .unable_to_get_pid, .fclose] ∧
    (freeswitch_kill_background true (some (bytes "-4321"))).run.trace
      = [.set_globals, .fopen true, .fscanf 1, .fclose] := by
  decide

end Switch
